import Mathlib

/-!
Shallow embedding of the clustered-shading light-culling core of this
repository: `src/renderers/base.js` (CPU side: `BaseRenderer.updateClusters`)
and the per-fragment cluster-index recomputation in
`src/shaders/deferred.frag.glsl.js` (GPU side).

JavaScript numbers are modelled as rationals.  `Math.tan(0.5 * fov * PI/180)`
is transcendental, so the already-evaluated tangent is carried as the camera
parameter `tanHalfFov` (the code uses the tangent only as an opaque scalar).
The cluster texture buffer is modelled as a total map from flat scalar
offsets to rationals.
-/

attribute [local semireducible] Rat.add Rat.mul Rat.sub Rat.inv

/-- MAX_LIGHTS_PER_CLUSTER (base.js line 4). -/
def MAX_LIGHTS_PER_CLUSTER : ℕ := 500

/-- elementSize = Math.ceil((MAX_LIGHTS_PER_CLUSTER + 1.0) / 4.0) (base.js line 20). -/
def elementSize : ℕ := (⌈((MAX_LIGHTS_PER_CLUSTER : ℚ) + 1) / 4⌉).toNat

/-- A 3-component vector of (JS-number) rationals, as gl-matrix vec3. -/
structure Vec3 where
  x : ℚ
  y : ℚ
  z : ℚ
deriving DecidableEq

/-- A 4x4 matrix in gl-matrix column-major entry order m0..m15:
column j holds entries m(4j) .. m(4j+3). -/
structure Mat4 where
  m0 : ℚ
  m1 : ℚ
  m2 : ℚ
  m3 : ℚ
  m4 : ℚ
  m5 : ℚ
  m6 : ℚ
  m7 : ℚ
  m8 : ℚ
  m9 : ℚ
  m10 : ℚ
  m11 : ℚ
  m12 : ℚ
  m13 : ℚ
  m14 : ℚ
  m15 : ℚ
deriving DecidableEq

/-- Modelled from gl-matrix (external npm dependency, not part of this
repository): vec3.transformMat4 applies the full 4x4 matrix and divides by
the resulting w, treating w as 1 when it is 0 (`w = w || 1.0`). -/
def transformMat4 (m : Mat4) (v : Vec3) : Vec3 :=
  let w0 := m.m3 * v.x + m.m7 * v.y + m.m11 * v.z + m.m15
  let w := if w0 = 0 then 1 else w0
  ⟨(m.m0 * v.x + m.m4 * v.y + m.m8 * v.z + m.m12) / w,
   (m.m1 * v.x + m.m5 * v.y + m.m9 * v.z + m.m13) / w,
   (m.m2 * v.x + m.m6 * v.y + m.m10 * v.z + m.m14) / w⟩

/-- Per-frame camera parameters.  `tanHalfFov` models the evaluated
`Math.tan(0.5 * camera.fov * (Math.PI / 180.0))` of base.js line 60. -/
structure Camera where
  near : ℚ
  far : ℚ
  tanHalfFov : ℚ
  aspect : ℚ
deriving DecidableEq

/-- A scene light: `position` (world space) and `radius` (base.js lines 43-44).
Color is never read by the culling core and is omitted. -/
structure Light where
  position : Vec3
  radius : ℚ
deriving DecidableEq

/-- The renderer state set up by the BaseRenderer constructor
(base.js lines 12-21). -/
structure BaseRenderer where
  xSlices : ℕ
  ySlices : ℕ
  zSlices : ℕ
  elementCount : ℕ
  elemSize : ℕ
deriving DecidableEq

/-- The BaseRenderer constructor (base.js lines 12-21): stores the grid
dimensions and derives elementCount and elementSize; it performs no
validation of its arguments. -/
def BaseRenderer.construct (xSlices ySlices zSlices : ℕ) : BaseRenderer :=
  ⟨xSlices, ySlices, zSlices, xSlices * ySlices * zSlices, elementSize⟩

/-- clampClusterIndex(val, min, max) = Math.min(Math.max(val, min), max)
(base.js lines 6-9). -/
def clampClusterIndex (val lo hi : ℤ) : ℤ := min (max val lo) hi

/-- JavaScript / GLSL truncation toward zero (GLSL `int(...)`, and the
truncation inside the JS `%` operator). -/
def truncQ (q : ℚ) : ℤ := if 0 ≤ q then ⌊q⌋ else ⌈q⌉

/-- The JavaScript remainder operator `a % b`: a - b * trunc(a / b). -/
def jsMod (a b : ℚ) : ℚ := a - b * (truncQ (a / b) : ℚ)

/-- World-space bounding-box min corner of a light: position - radius per
axis (base.js line 47). -/
def lightBBMin (l : Light) : Vec3 :=
  ⟨l.position.x - l.radius, l.position.y - l.radius, l.position.z - l.radius⟩

/-- World-space bounding-box max corner of a light: position + radius per
axis (base.js line 48). -/
def lightBBMax (l : Light) : Vec3 :=
  ⟨l.position.x + l.radius, l.position.y + l.radius, l.position.z + l.radius⟩

/-- viewBBMin (base.js line 53): the min corner transformed into view space. -/
def lightViewBBMin (vm : Mat4) (l : Light) : Vec3 := transformMat4 vm (lightBBMin l)

/-- viewBBMax (base.js line 54): the max corner transformed into view space. -/
def lightViewBBMax (vm : Mat4) (l : Light) : Vec3 := transformMat4 vm (lightBBMax l)

/-- zNear = -viewBBMin.z (base.js line 57). -/
def lightZNear (vm : Mat4) (l : Light) : ℚ := -(lightViewBBMin vm l).z

/-- zFar = -viewBBMax.z (base.js line 58). -/
def lightZFar (vm : Mat4) (l : Light) : ℚ := -(lightViewBBMax vm l).z

/-- zStep = (camera.far - camera.near) / zSlices (base.js line 59). -/
def zStepOf (cam : Camera) (nz : ℕ) : ℚ := (cam.far - cam.near) / nz

/-- halfYLenNear = zNear * tanFov (base.js line 62). -/
def halfYLenNearOf (cam : Camera) (vm : Mat4) (l : Light) : ℚ :=
  lightZNear vm l * cam.tanHalfFov

/-- halfXLenNear = halfYLenNear * aspect (base.js line 63). -/
def halfXLenNearOf (cam : Camera) (vm : Mat4) (l : Light) : ℚ :=
  halfYLenNearOf cam vm l * cam.aspect

/-- halfYLenFar = zFar * tanFov (base.js line 65). -/
def halfYLenFarOf (cam : Camera) (vm : Mat4) (l : Light) : ℚ :=
  lightZFar vm l * cam.tanHalfFov

/-- halfXLenFar = halfYLenFar * aspect (base.js line 66). -/
def halfXLenFarOf (cam : Camera) (vm : Mat4) (l : Light) : ℚ :=
  halfYLenFarOf cam vm l * cam.aspect

/-- The active min-bound formula of base.js lines 69 and 84:
Math.floor(viewBBMin + (slices * halfLen) / (2.0 * halfLen)). -/
def axisMinPre (n : ℕ) (vmin halfLen : ℚ) : ℤ :=
  ⌊vmin + (n * halfLen) / (2 * halfLen)⌋

/-- The active max-bound formula of base.js lines 70 and 85:
Math.ceil(viewBBMax + (slices * halfLen) / (2.0 * halfLen)). -/
def axisMaxPre (n : ℕ) (vmax halfLen : ℚ) : ℤ :=
  ⌈vmax + (n * halfLen) / (2 * halfLen)⌉

/-- One axis of step 5 of base.js: clamp both bounds to [0, dim]
(lines 76-77 / 91-92 / 102-103) and then swap min and max if inverted
(lines 80-82 / 95-97 / 106-108). -/
def finalAxis (pmin pmax : ℤ) (dim : ℕ) : ℤ × ℤ :=
  let a := clampClusterIndex pmin 0 dim
  let b := clampClusterIndex pmax 0 dim
  (min a b, max a b)

/-- The final, clamped and swapped per-light cluster index bounds. -/
structure ClusterRange where
  xMin : ℤ
  xMax : ℤ
  yMin : ℤ
  yMax : ℤ
  zMin : ℤ
  zMax : ℤ
deriving DecidableEq

/-- Steps 2-5 of updateClusters (base.js lines 46-108) for one light:
the final cluster index range the population loop iterates over. -/
def lightClusterRange (st : BaseRenderer) (cam : Camera) (vm : Mat4) (l : Light) :
    ClusterRange :=
  let xa := finalAxis
    (axisMinPre st.xSlices (lightViewBBMin vm l).x (halfXLenNearOf cam vm l))
    (axisMaxPre st.xSlices (lightViewBBMax vm l).x (halfXLenFarOf cam vm l))
    st.xSlices
  let ya := finalAxis
    (axisMinPre st.ySlices (lightViewBBMin vm l).y (halfYLenNearOf cam vm l))
    (axisMaxPre st.ySlices (lightViewBBMax vm l).y (halfYLenFarOf cam vm l))
    st.ySlices
  let za := finalAxis
    ⌊lightZNear vm l / zStepOf cam st.zSlices⌋
    ⌈lightZFar vm l / zStepOf cam st.zSlices⌉
    st.zSlices
  ⟨xa.1, xa.2, ya.1, ya.2, za.1, za.2⟩

/-- Row-major 3D-to-1D cluster index x + y*nx + z*nx*ny
(base.js lines 32 and 117). -/
def flatten (nx ny x y z : ℕ) : ℕ := x + y * nx + z * nx * ny

/-- Modelled from the spec: textureBuffer.js is not under src/; section 4.1
gives the contract bufferIndex(cluster, group) = cluster * elementSize * 4 +
group * 4 (four-scalar pixel groups). -/
def bufferIndex (c g : ℕ) : ℕ := c * (elementSize * 4) + g * 4

/-- The flat cluster texture store: a total map from scalar offsets to
JS-number values. -/
abbrev Buffer := ℕ → ℚ

/-- A single scalar store into the buffer. -/
def Buffer.write (b : Buffer) (i : ℕ) (v : ℚ) : Buffer :=
  fun j => if j = i then v else b j

/-- The count-reset loop at the start of updateClusters (base.js lines
28-37): for every in-grid cluster, set its count slot to 0. -/
def resetLoop (st : BaseRenderer) (buf : Buffer) : Buffer :=
  (List.range st.zSlices).foldl (fun bz z =>
    (List.range st.ySlices).foldl (fun by' y =>
      (List.range st.xSlices).foldl (fun bx x =>
        bx.write (bufferIndex (flatten st.xSlices st.ySlices x y z) 0) 0) by') bz) buf

/-- The integers a, a+1, ..., b-1: the values taken by a JS loop
`for (v = a; v < b; ++v)`. -/
def intRange (a b : ℤ) : List ℤ :=
  (List.range (b - a).toNat).map (fun k : ℕ => a + (k : ℤ))

/-- The population loop body for one (light, cluster) pair (base.js lines
119-131): if the cluster's count is below MAX_LIGHTS_PER_CLUSTER, increment
it and store the light index i at the next free scalar slot. -/
def addLightToCluster (i clusterIdx : ℕ) (buf : Buffer) : Buffer :=
  let lightCountIdx := bufferIndex clusterIdx 0
  if buf lightCountIdx < (MAX_LIGHTS_PER_CLUSTER : ℚ) then
    let buf1 := buf.write lightCountIdx (buf lightCountIdx + 1)
    let lightIdx := buf1 lightCountIdx
    let pixelNum := (⌊lightIdx / 4⌋).toNat
    let pixelComponent := (⌊jsMod lightIdx 4⌋).toNat
    buf1.write (bufferIndex clusterIdx pixelNum + pixelComponent) (i : ℚ)
  else buf

/-- The triple population loop of base.js lines 113-134 for one light with
final range r: visit every (x, y, z) with zMin <= z < zMax, yMin <= y < yMax,
xMin <= x < xMax and run the loop body on its flat cluster index.  The loop
bounds are clamped to [0, dim], so the visited coordinates are nonnegative
and toNat is exact. -/
def populateLight (st : BaseRenderer) (r : ClusterRange) (i : ℕ) (buf : Buffer) :
    Buffer :=
  (intRange r.zMin r.zMax).foldl (fun bz z =>
    (intRange r.yMin r.yMax).foldl (fun by' y =>
      (intRange r.xMin r.xMax).foldl (fun bx x =>
        addLightToCluster i
          (x + y * (st.xSlices : ℤ) + z * (st.xSlices : ℤ) * (st.ySlices : ℤ)).toNat
          bx) by') bz) buf

/-- Placeholder light for the (never taken) out-of-bounds read of
scene.lights[i]; the frame loop only reads indices below lights.length. -/
def dummyLight : Light := ⟨⟨0, 0, 0⟩, 0⟩

/-- updateClusters (base.js lines 23-138): reset every cluster count, then
for every light in scene-declaration order compute its cluster range and
register its index in every visited cluster. -/
def updateClusters (st : BaseRenderer) (cam : Camera) (vm : Mat4)
    (lights : List Light) (buf : Buffer) : Buffer :=
  let buf1 := resetLoop st buf
  (List.range lights.length).foldl (fun b i =>
    populateLight st (lightClusterRange st cam vm (lights.getD i dummyLight)) i b)
    buf1

/-- The stored light count of cluster c: the first scalar of its element. -/
def clusterCount (buf : Buffer) (c : ℕ) : ℚ := buf (bufferIndex c 0)

/-- The j-th scalar of cluster c's element; for j in [1, MAX_LIGHTS_PER_CLUSTER]
this is the j-th stored light-index slot. -/
def clusterSlot (buf : Buffer) (c j : ℕ) : ℚ := buf (bufferIndex c 0 + j)

/-- Whether cluster coordinates (cx, cy, cz) lie inside a final range, i.e.
whether the population loop visits them. -/
def inRangeB (r : ClusterRange) (cx cy cz : ℕ) : Bool :=
  decide (r.xMin ≤ (cx : ℤ) ∧ (cx : ℤ) < r.xMax ∧
          r.yMin ≤ (cy : ℤ) ∧ (cy : ℤ) < r.yMax ∧
          r.zMin ≤ (cz : ℤ) ∧ (cz : ℤ) < r.zMax)

/-- GPU-side cluster coordinates recomputed per fragment
(deferred.frag.glsl.js lines 98-104).  GLSL int() truncates toward zero;
u_slices carries the grid dimensions, u_clipDist the depth extent uniform. -/
def shaderClusterXYZ (nx ny nz : ℕ) (tanFov aspect clipDist : ℚ) (v : Vec3) :
    ℤ × ℤ × ℤ :=
  let halfYLen := v.z * tanFov
  let halfXLen := halfYLen * aspect
  let clusterX := truncQ (v.x + ((nx : ℚ) * halfXLen) / (2 * halfXLen))
  let clusterY := truncQ (v.y + ((ny : ℚ) * halfYLen) / (2 * halfYLen))
  let clusterZ := truncQ (v.z / (clipDist / nz))
  (clusterX, clusterY, clusterZ)

/-- GPU-side flat cluster index (deferred.frag.glsl.js line 110). -/
def shaderClusterIndex (nx ny nz : ℕ) (tanFov aspect clipDist : ℚ) (v : Vec3) : ℤ :=
  let t := shaderClusterXYZ nx ny nz tanFov aspect clipDist v
  t.1 + t.2.1 * nx + t.2.2 * nx * ny

/-- CPU-side steps 3-4 of base.js applied to a single view-space point
(both bounding-box corners coincide), floor/near side: the cluster
coordinates the CPU formulas assign to that point. -/
def cpuPointClusterXYZ (nx ny nz : ℕ) (cam : Camera) (v : Vec3) : ℤ × ℤ × ℤ :=
  let zNear := -v.z
  let halfYLenNear := zNear * cam.tanHalfFov
  let halfXLenNear := halfYLenNear * cam.aspect
  (axisMinPre nx v.x halfXLenNear, axisMinPre ny v.y halfYLenNear,
   ⌊zNear / zStepOf cam nz⌋)

/-- CPU-side flat index of the point's cluster coordinates, row-major. -/
def cpuPointClusterIndex (nx ny nz : ℕ) (cam : Camera) (v : Vec3) : ℤ :=
  let t := cpuPointClusterXYZ nx ny nz cam v
  t.1 + t.2.1 * nx + t.2.2 * nx * ny

/-- The min-bound formula as the spec's words state it (spec section 4.2
step 4: divide the offset extent by the slice width 2*halfLen/n); a second
definition kept for comparison against the source's axisMinPre. -/
def specAxisMin (n : ℕ) (vmin halfLen : ℚ) : ℤ :=
  ⌊(vmin + halfLen) / (2 * halfLen / n)⌋

/-- The max-bound formula as the spec's words state it. -/
def specAxisMax (n : ℕ) (vmax halfLen : ℚ) : ℤ :=
  ⌈(vmax + halfLen) / (2 * halfLen / n)⌉

/-! ## Concrete fixtures used by counterexamples and witnesses -/

/-- The identity view matrix. -/
def matIdentity : Mat4 := ⟨1, 0, 0, 0, 0, 1, 0, 0, 0, 0, 1, 0, 0, 0, 0, 1⟩

/-- A camera with near 1, far 100, tan(fov/2) = 1/10, aspect 1. -/
def cameraA : Camera := ⟨1, 100, 1/10, 1⟩

/-- A 4x4x4 grid renderer. -/
def gridA : BaseRenderer := BaseRenderer.construct 4 4 4

/-- A radius-0 light at view-space position (1, 0, -10) (identity view). -/
def lightC2 : Light := ⟨⟨1, 0, -10⟩, 0⟩

/-- A radius-0 light at (1.5, 0.5, -10): laterally outside cameraA's frustum,
whose half-width at depth 10 is 10 * (1/10) * 1 = 1 < 1.5. -/
def lightC6 : Light := ⟨⟨3/2, 1/2, -10⟩, 0⟩

/-- A light at depth 15 on the camera axis with radius 0. -/
def lightC7a : Light := ⟨⟨0, 0, -15⟩, 0⟩

/-- The same light position with the larger radius 10. -/
def lightC7b : Light := ⟨⟨0, 0, -15⟩, 10⟩

/-! ## Arithmetic helpers -/

lemma add_mul_cancel_parts (nx x x' A A' : ℕ) (hx : x < nx) (hx' : x' < nx)
    (h : x + nx * A = x' + nx * A') : x = x' ∧ A = A' := by
  have h1 : (x + nx * A) % nx = x := by
    rw [Nat.add_mul_mod_self_left, Nat.mod_eq_of_lt hx]
  have h2 : (x' + nx * A') % nx = x' := by
    rw [Nat.add_mul_mod_self_left, Nat.mod_eq_of_lt hx']
  have hxx : x = x' := by rw [← h1, ← h2, h]
  have hnx : 0 < nx := lt_of_le_of_lt (Nat.zero_le x) hx
  have hA : A = A' := by
    have h3 : nx * A = nx * A' := by omega
    exact Nat.eq_of_mul_eq_mul_left hnx h3
  exact ⟨hxx, hA⟩

lemma flatten_lt (nx ny nz x y z : ℕ) (hx : x < nx) (hy : y < ny) (hz : z < nz) :
    flatten nx ny x y z < nx * ny * nz := by
  unfold flatten
  calc x + y * nx + z * nx * ny
      < nx + y * nx + z * nx * ny := by omega
    _ = (1 + y) * nx + z * (nx * ny) := by ring
    _ ≤ ny * nx + z * (nx * ny) := by
        have h1 : 1 + y ≤ ny := by omega
        exact Nat.add_le_add_right (mul_le_mul_right' h1 nx) _
    _ = (1 + z) * (nx * ny) := by ring
    _ ≤ nz * (nx * ny) := by
        have h2 : 1 + z ≤ nz := by omega
        exact mul_le_mul_right' h2 (nx * ny)
    _ = nx * ny * nz := by ring

lemma flatten_inj (nx ny x y z x' y' z' : ℕ) (hx : x < nx) (hx' : x' < nx)
    (hy : y < ny) (hy' : y' < ny) :
    flatten nx ny x y z = flatten nx ny x' y' z' → x = x' ∧ y = y' ∧ z = z' := by
  intro h
  have e1 : flatten nx ny x y z = x + nx * (y + ny * z) := by unfold flatten; ring
  have e2 : flatten nx ny x' y' z' = x' + nx * (y' + ny * z') := by unfold flatten; ring
  rw [e1, e2] at h
  obtain ⟨exx, eA⟩ := add_mul_cancel_parts nx x x' _ _ hx hx' h
  obtain ⟨eyy, ezz⟩ := add_mul_cancel_parts ny y y' z z' hy hy' eA
  exact ⟨exx, eyy, ezz⟩

lemma half_cancel (n : ℕ) (h : ℚ) (hh : h ≠ 0) :
    ((n : ℚ) * h) / (2 * h) = (n : ℚ) / 2 := by
  field_simp
  ring

lemma axisMinPre_eq (n : ℕ) (v h : ℚ) (hh : h ≠ 0) :
    axisMinPre n v h = ⌊v + (n : ℚ) / 2⌋ := by
  unfold axisMinPre
  rw [half_cancel n h hh]

lemma axisMaxPre_eq (n : ℕ) (v h : ℚ) (hh : h ≠ 0) :
    axisMaxPre n v h = ⌈v + (n : ℚ) / 2⌉ := by
  unfold axisMaxPre
  rw [half_cancel n h hh]

/-! ## Claim C4 -/

/-- C4: for 0 <= x < nx, 0 <= y < ny, 0 <= z < nz, the row-major flattening
x + y*nx + z*nx*ny lands in [0, nx*ny*nz) and is injective on in-bounds
triples.  Both the reset loop and the population loop of the embedding use
this very `flatten` formula. -/
theorem C4_flatten_bounds_injective (nx ny nz x y z x' y' z' : ℕ)
    (hx : x < nx) (hy : y < ny) (hz : z < nz)
    (hx' : x' < nx) (hy' : y' < ny) (hz' : z' < nz) :
    flatten nx ny x y z < nx * ny * nz ∧
    (flatten nx ny x y z = flatten nx ny x' y' z' → x = x' ∧ y = y' ∧ z = z') :=
  ⟨flatten_lt nx ny nz x y z hx hy hz, flatten_inj nx ny x y z x' y' z' hx hx' hy hy'⟩

/-- Witness for C4 at a concrete in-bounds instance. -/
theorem C4_witness : flatten 2 2 1 0 1 < 2 * 2 * 2 ∧
    (flatten 2 2 1 0 1 = flatten 2 2 1 1 0 → 1 = 1 ∧ 0 = 1 ∧ 1 = 0) :=
  C4_flatten_bounds_injective 2 2 2 1 0 1 1 1 0 (by decide) (by decide) (by decide)
    (by decide) (by decide) (by decide)

/-! ## Claim C5 -/

/-- C5: the pre-clamp z cluster range is exactly zMin = floor(zNear/zStep),
zMax = ceil(zFar/zStep) with zNear = -viewBBMin.z, zFar = -viewBBMax.z,
zStep = (far - near)/nz, where viewBBMin/viewBBMax are the view-space
transforms of position - radius and position + radius; and these pre-clamp
values are the ones the final range clamps and swaps. -/
theorem C5_z_range_formula (st : BaseRenderer) (cam : Camera) (vm : Mat4) (l : Light) :
    ⌊lightZNear vm l / zStepOf cam st.zSlices⌋
      = ⌊(-(transformMat4 vm ⟨l.position.x - l.radius, l.position.y - l.radius,
            l.position.z - l.radius⟩).z) / ((cam.far - cam.near) / (st.zSlices : ℚ))⌋
  ∧ ⌈lightZFar vm l / zStepOf cam st.zSlices⌉
      = ⌈(-(transformMat4 vm ⟨l.position.x + l.radius, l.position.y + l.radius,
            l.position.z + l.radius⟩).z) / ((cam.far - cam.near) / (st.zSlices : ℚ))⌉
  ∧ (lightClusterRange st cam vm l).zMin
      = (finalAxis ⌊lightZNear vm l / zStepOf cam st.zSlices⌋
          ⌈lightZFar vm l / zStepOf cam st.zSlices⌉ st.zSlices).1
  ∧ (lightClusterRange st cam vm l).zMax
      = (finalAxis ⌊lightZNear vm l / zStepOf cam st.zSlices⌋
          ⌈lightZFar vm l / zStepOf cam st.zSlices⌉ st.zSlices).2 :=
  ⟨rfl, rfl, rfl, rfl⟩

/-! ## Claim C2 -/

/-- Counterexample to C2: at a concrete light (radius 0 at view position
(1, 0, -10), identity view, 4 slices, tan(fov/2) = 1/10, aspect 1) the
code's x bound (base.js line 69) is 3, while the bound claimed by the spec
formula floor((viewBBMin.x + halfXLenNear) / (2*halfXLenNear/nx)) is 4. -/
theorem C2_counterexample :
    axisMinPre gridA.xSlices (lightViewBBMin matIdentity lightC2).x
        (halfXLenNearOf cameraA matIdentity lightC2)
      = 3
  ∧ specAxisMin gridA.xSlices (lightViewBBMin matIdentity lightC2).x
        (halfXLenNearOf cameraA matIdentity lightC2)
      = 4
  ∧ axisMinPre gridA.xSlices (lightViewBBMin matIdentity lightC2).x
        (halfXLenNearOf cameraA matIdentity lightC2)
      ≠ specAxisMin gridA.xSlices (lightViewBBMin matIdentity lightC2).x
        (halfXLenNearOf cameraA matIdentity lightC2) := by
  refine ⟨by decide, by decide, by decide⟩

/-- C2 amended: in the code the half-extent cancels — whenever the
half-extent is nonzero, the pre-clamp bounds are floor(viewBBMin + n/2) and
ceil(viewBBMax + n/2), so they do not depend on the half-extent (hence not
on fov or aspect): two different nonzero half-extents give identical
bounds. -/
theorem C2_amended (n : ℕ) (vmin vmax hNear hFar : ℚ)
    (hhn : hNear ≠ 0) (hhf : hFar ≠ 0) :
    axisMinPre n vmin hNear = ⌊vmin + (n : ℚ) / 2⌋
  ∧ axisMaxPre n vmax hFar = ⌈vmax + (n : ℚ) / 2⌉
  ∧ axisMinPre n vmin hNear = axisMinPre n vmin hFar
  ∧ axisMaxPre n vmax hFar = axisMaxPre n vmax hNear := by
  refine ⟨axisMinPre_eq n vmin hNear hhn, axisMaxPre_eq n vmax hFar hhf, ?_, ?_⟩
  · rw [axisMinPre_eq n vmin hNear hhn, axisMinPre_eq n vmin hFar hhf]
  · rw [axisMaxPre_eq n vmax hFar hhf, axisMaxPre_eq n vmax hNear hhn]

/-- Witness for C2 amended at concrete values. -/
theorem C2_amended_witness :
    axisMinPre 4 1 1 = ⌊(1 : ℚ) + (4 : ℚ) / 2⌋
  ∧ axisMaxPre 4 1 2 = ⌈(1 : ℚ) + (4 : ℚ) / 2⌉
  ∧ axisMinPre 4 1 1 = axisMinPre 4 1 2
  ∧ axisMaxPre 4 1 2 = axisMaxPre 4 1 1 :=
  C2_amended 4 1 1 1 2 (by decide) (by decide)

/-! ## Claim C8 -/

/-- C8: the constructor performs no validation.  Constructing with a zero
grid dimension succeeds and yields a silently misconfigured object with
elementCount 0 (instead of failing fast as the spec requires). -/
theorem C8_construct_no_validation :
    BaseRenderer.construct 0 4 4 = ⟨0, 4, 4, 0, 126⟩
  ∧ (BaseRenderer.construct 0 4 4).elementCount = 0 := by
  refine ⟨by decide, by decide⟩

/-! ## truncation helpers -/

lemma truncQ_of_nonneg (q : ℚ) (h : 0 ≤ q) : truncQ q = ⌊q⌋ := if_pos h

lemma truncQ_of_neg (q : ℚ) (h : q < 0) : truncQ q = ⌈q⌉ := if_neg (not_le.mpr h)

lemma truncQ_neg (q : ℚ) : truncQ (-q) = -truncQ q := by
  rcases lt_trichotomy q 0 with h | h | h
  · rw [truncQ_of_nonneg (-q) (by linarith), truncQ_of_neg q h, Int.floor_neg]
  · subst h
    simp [truncQ]
  · rw [truncQ_of_neg (-q) (by linarith), truncQ_of_nonneg q h.le, Int.ceil_neg]

/-! ## Claim C3 -/

/-- Counterexample to C3: at the view-space point (0, 0, -30) with a 4x4x4
grid, tan(fov/2) = 1/10, aspect 1, near 1, far 100 and clipDist = far - near,
the shader's recomputed flat cluster index is -6 while the CPU-side formulas
assign 26: the shader does not negate z (and truncates instead of flooring),
so the two sides are not the same function of the view-space position. -/
theorem C3_counterexample :
    shaderClusterIndex 4 4 4 cameraA.tanHalfFov cameraA.aspect
        (cameraA.far - cameraA.near) ⟨0, 0, -30⟩
      = -6
  ∧ cpuPointClusterIndex 4 4 4 cameraA ⟨0, 0, -30⟩ = 26
  ∧ shaderClusterIndex 4 4 4 cameraA.tanHalfFov cameraA.aspect
        (cameraA.far - cameraA.near) ⟨0, 0, -30⟩
      ≠ cpuPointClusterIndex 4 4 4 cameraA ⟨0, 0, -30⟩ := by
  refine ⟨by decide, by decide, by decide⟩

/-- C3 amended: for an in-front view-space point (v.z < 0) the shader's x
and y cluster coordinates agree with the CPU-side ones whenever the shifted
coordinates are nonnegative (there truncation and floor coincide, and the
half-extent cancels on both sides); but the z coordinate follows the
opposite sign convention: the shader computes the negation of the truncated
depth ratio, so as soon as the CPU ratio zNear/zStep reaches 1 the combined
flat indices differ. -/
theorem C3_amended (nx ny nz : ℕ) (cam : Camera) (clipDist : ℚ) (v : Vec3)
    (hnx : 0 < nx) (hny : 0 < ny) (hnz : 0 < nz)
    (htan : 0 < cam.tanHalfFov) (hasp : 0 < cam.aspect)
    (hvz : v.z < 0) (hnf : cam.near < cam.far)
    (hclip : clipDist = cam.far - cam.near)
    (hx : 0 ≤ v.x + (nx : ℚ) / 2) (hy : 0 ≤ v.y + (ny : ℚ) / 2) :
    (shaderClusterXYZ nx ny nz cam.tanHalfFov cam.aspect clipDist v).1
      = (cpuPointClusterXYZ nx ny nz cam v).1
  ∧ (shaderClusterXYZ nx ny nz cam.tanHalfFov cam.aspect clipDist v).2.1
      = (cpuPointClusterXYZ nx ny nz cam v).2.1
  ∧ (shaderClusterXYZ nx ny nz cam.tanHalfFov cam.aspect clipDist v).2.2
      = -truncQ (-v.z / zStepOf cam nz)
  ∧ ((1 : ℚ) ≤ -v.z / zStepOf cam nz →
      shaderClusterIndex nx ny nz cam.tanHalfFov cam.aspect clipDist v
        ≠ cpuPointClusterIndex nx ny nz cam v) := by
  have hyneg : v.z * cam.tanHalfFov < 0 := mul_neg_of_neg_of_pos hvz htan
  have hxneg : v.z * cam.tanHalfFov * cam.aspect < 0 := mul_neg_of_neg_of_pos hyneg hasp
  have hypos : 0 < -v.z * cam.tanHalfFov := mul_pos (by linarith) htan
  have hxpos : 0 < -v.z * cam.tanHalfFov * cam.aspect := mul_pos hypos hasp
  have hX : (shaderClusterXYZ nx ny nz cam.tanHalfFov cam.aspect clipDist v).1
      = (cpuPointClusterXYZ nx ny nz cam v).1 := by
    show truncQ (v.x + ((nx : ℚ) * (v.z * cam.tanHalfFov * cam.aspect))
          / (2 * (v.z * cam.tanHalfFov * cam.aspect)))
        = axisMinPre nx v.x (-v.z * cam.tanHalfFov * cam.aspect)
    rw [half_cancel nx _ (ne_of_lt hxneg),
      axisMinPre_eq nx v.x _ (ne_of_gt hxpos), truncQ_of_nonneg _ hx]
  have hY : (shaderClusterXYZ nx ny nz cam.tanHalfFov cam.aspect clipDist v).2.1
      = (cpuPointClusterXYZ nx ny nz cam v).2.1 := by
    show truncQ (v.y + ((ny : ℚ) * (v.z * cam.tanHalfFov))
          / (2 * (v.z * cam.tanHalfFov)))
        = axisMinPre ny v.y (-v.z * cam.tanHalfFov)
    rw [half_cancel ny _ (ne_of_lt hyneg),
      axisMinPre_eq ny v.y _ (ne_of_gt hypos), truncQ_of_nonneg _ hy]
  have hZ : (shaderClusterXYZ nx ny nz cam.tanHalfFov cam.aspect clipDist v).2.2
      = -truncQ (-v.z / zStepOf cam nz) := by
    show truncQ (v.z / (clipDist / (nz : ℚ))) = -truncQ (-v.z / zStepOf cam nz)
    have e : v.z / (clipDist / (nz : ℚ)) = -(-v.z / zStepOf cam nz) := by
      rw [hclip, zStepOf]
      ring
    rw [e, truncQ_neg]
  refine ⟨hX, hY, hZ, ?_⟩
  intro hge hcontra
  have hD : 0 < zStepOf cam nz := by
    have : (0 : ℚ) < (nz : ℚ) := by exact_mod_cast hnz
    exact div_pos (by linarith) this
  have hqpos : (0 : ℚ) ≤ -v.z / zStepOf cam nz := by linarith
  have hcpuZ : (1 : ℤ) ≤ (cpuPointClusterXYZ nx ny nz cam v).2.2 := by
    show (1 : ℤ) ≤ ⌊-v.z / zStepOf cam nz⌋
    exact Int.le_floor.mpr (by push_cast; linarith)
  have hshZ : (shaderClusterXYZ nx ny nz cam.tanHalfFov cam.aspect clipDist v).2.2
      ≤ -1 := by
    rw [hZ, truncQ_of_nonneg _ hqpos]
    have h1 : (1 : ℤ) ≤ ⌊-v.z / zStepOf cam nz⌋ := Int.le_floor.mpr (by push_cast; linarith)
    omega
  have hidx : shaderClusterIndex nx ny nz cam.tanHalfFov cam.aspect clipDist v
      = (shaderClusterXYZ nx ny nz cam.tanHalfFov cam.aspect clipDist v).1
        + (shaderClusterXYZ nx ny nz cam.tanHalfFov cam.aspect clipDist v).2.1 * nx
        + (shaderClusterXYZ nx ny nz cam.tanHalfFov cam.aspect clipDist v).2.2 * nx * ny :=
    rfl
  have hidx2 : cpuPointClusterIndex nx ny nz cam v
      = (cpuPointClusterXYZ nx ny nz cam v).1
        + (cpuPointClusterXYZ nx ny nz cam v).2.1 * nx
        + (cpuPointClusterXYZ nx ny nz cam v).2.2 * nx * ny := rfl
  rw [hidx, hidx2, hX, hY] at hcontra
  have hzz : (shaderClusterXYZ nx ny nz cam.tanHalfFov cam.aspect clipDist v).2.2
      * nx * ny = (cpuPointClusterXYZ nx ny nz cam v).2.2 * nx * ny := by omega
  have hnn : (0 : ℤ) < (nx : ℤ) * ny := by
    have h1 : (0 : ℤ) < (nx : ℤ) := by exact_mod_cast hnx
    have h2 : (0 : ℤ) < (ny : ℤ) := by exact_mod_cast hny
    exact mul_pos h1 h2
  have heq : (shaderClusterXYZ nx ny nz cam.tanHalfFov cam.aspect clipDist v).2.2
      = (cpuPointClusterXYZ nx ny nz cam v).2.2 := by
    have := hzz
    rw [mul_assoc, mul_assoc] at this
    exact mul_right_cancel₀ (ne_of_gt hnn) this
  omega

/-- Witness for C3 amended at the point (0, 0, -30) with cameraA and
clipDist 99: the x components agree and the shader z is the negated
truncation. -/
theorem C3_amended_witness :
    (shaderClusterXYZ 4 4 4 cameraA.tanHalfFov cameraA.aspect 99 ⟨0, 0, -30⟩).1
      = (cpuPointClusterXYZ 4 4 4 cameraA ⟨0, 0, -30⟩).1
  ∧ (shaderClusterXYZ 4 4 4 cameraA.tanHalfFov cameraA.aspect 99 ⟨0, 0, -30⟩).2.2
      = -truncQ (-(Vec3.mk 0 0 (-30)).z / zStepOf cameraA 4) :=
  ⟨(C3_amended 4 4 4 cameraA 99 ⟨0, 0, -30⟩ (by decide) (by decide) (by decide)
      (by decide) (by decide) (by decide) (by decide) (by decide) (by decide)
      (by decide)).1,
   (C3_amended 4 4 4 cameraA 99 ⟨0, 0, -30⟩ (by decide) (by decide) (by decide)
      (by decide) (by decide) (by decide) (by decide) (by decide) (by decide)
      (by decide)).2.2.1⟩

/-! ## Range well-formedness helpers -/

lemma finalAxis_wf (pmin pmax : ℤ) (dim : ℕ) :
    0 ≤ (finalAxis pmin pmax dim).1
  ∧ (finalAxis pmin pmax dim).1 ≤ (finalAxis pmin pmax dim).2
  ∧ (finalAxis pmin pmax dim).2 ≤ (dim : ℤ) := by
  simp only [finalAxis, clampClusterIndex]
  have hdim : (0 : ℤ) ≤ (dim : ℤ) := Int.natCast_nonneg dim
  refine ⟨?_, ?_, ?_⟩ <;> omega

lemma lightClusterRange_wf (st : BaseRenderer) (cam : Camera) (vm : Mat4) (l : Light) :
    (0 ≤ (lightClusterRange st cam vm l).xMin
      ∧ (lightClusterRange st cam vm l).xMin ≤ (lightClusterRange st cam vm l).xMax
      ∧ (lightClusterRange st cam vm l).xMax ≤ (st.xSlices : ℤ))
  ∧ (0 ≤ (lightClusterRange st cam vm l).yMin
      ∧ (lightClusterRange st cam vm l).yMin ≤ (lightClusterRange st cam vm l).yMax
      ∧ (lightClusterRange st cam vm l).yMax ≤ (st.ySlices : ℤ))
  ∧ (0 ≤ (lightClusterRange st cam vm l).zMin
      ∧ (lightClusterRange st cam vm l).zMin ≤ (lightClusterRange st cam vm l).zMax
      ∧ (lightClusterRange st cam vm l).zMax ≤ (st.zSlices : ℤ)) := by
  unfold lightClusterRange
  exact ⟨finalAxis_wf _ _ _, finalAxis_wf _ _ _, finalAxis_wf _ _ _⟩

lemma finalAxis_eq_of_nonpos (pmin pmax : ℤ) (dim : ℕ)
    (h1 : pmin ≤ 0) (h2 : pmax ≤ 0) :
    (finalAxis pmin pmax dim).1 = (finalAxis pmin pmax dim).2 := by
  simp only [finalAxis, clampClusterIndex]
  have hdim : (0 : ℤ) ≤ (dim : ℤ) := Int.natCast_nonneg dim
  omega

lemma finalAxis_eq_of_ge (pmin pmax : ℤ) (dim : ℕ)
    (h1 : (dim : ℤ) ≤ pmin) (h2 : (dim : ℤ) ≤ pmax) :
    (finalAxis pmin pmax dim).1 = (finalAxis pmin pmax dim).2 := by
  simp only [finalAxis, clampClusterIndex]
  have hdim : (0 : ℤ) ≤ (dim : ℤ) := Int.natCast_nonneg dim
  omega

lemma populateLight_of_empty (st : BaseRenderer) (r : ClusterRange) (i : ℕ)
    (buf : Buffer) (h : r.zMin = r.zMax) : populateLight st r i buf = buf := by
  unfold populateLight intRange
  rw [h, sub_self]
  simp

/-! ## Claim C6 -/

/-- A radius-0 light behind the camera (world position (0, 0, 5), identity
view): its depth zNear is -5. -/
def lightBehind : Light := ⟨⟨0, 0, 5⟩, 0⟩

/-- Counterexample to C6: lightC6 has radius 0 and sits laterally outside
the frustum (its view x extent 1.5 exceeds the frustum half-width
zNear * tan(fov/2) * aspect = 1 at its depth), yet after updateClusters the
cluster (3, 2, 0) stores this light: its count is 1 and its first slot
holds light index 0.  So an out-of-frustum radius-0 light does not always
yield an empty cluster range. -/
theorem C6_counterexample :
    lightC6.radius = 0
  ∧ (lightViewBBMin matIdentity lightC6).x
      > lightZNear matIdentity lightC6 * cameraA.tanHalfFov * cameraA.aspect
  ∧ clusterCount (updateClusters gridA cameraA matIdentity [lightC6] (fun _ => 0))
      (flatten 4 4 3 2 0) = 1
  ∧ clusterSlot (updateClusters gridA cameraA matIdentity [lightC6] (fun _ => 0))
      (flatten 4 4 3 2 0) 1 = 0 := by
  refine ⟨by decide, by decide, by decide, by decide⟩

/-- C6 amended: updateClusters raises no error on any input — every axis
range is always clamped into [0, dim] with min <= max; and a radius-0 light
whose view-space depth zNear is nonpositive (behind the camera) or beyond
the far plane gets an empty z-range (zMin = zMax), so its population loop
iterates zero times and no cluster gains its index.  (A radius-0 light
outside the frustum only laterally can still be registered, as the
counterexample shows, because the half-extent cancels out of the x/y
formulas.) -/
theorem C6_amended (st : BaseRenderer) (cam : Camera) (vm : Mat4) (l : Light)
    (i : ℕ) (buf : Buffer)
    (hr : l.radius = 0) (hnear : 0 ≤ cam.near) (hnf : cam.near < cam.far)
    (hnz : 0 < st.zSlices)
    (hd : lightZNear vm l ≤ 0 ∨ cam.far < lightZNear vm l) :
    (0 ≤ (lightClusterRange st cam vm l).xMin
      ∧ (lightClusterRange st cam vm l).xMin ≤ (lightClusterRange st cam vm l).xMax
      ∧ (lightClusterRange st cam vm l).xMax ≤ (st.xSlices : ℤ))
  ∧ (0 ≤ (lightClusterRange st cam vm l).yMin
      ∧ (lightClusterRange st cam vm l).yMin ≤ (lightClusterRange st cam vm l).yMax
      ∧ (lightClusterRange st cam vm l).yMax ≤ (st.ySlices : ℤ))
  ∧ (0 ≤ (lightClusterRange st cam vm l).zMin
      ∧ (lightClusterRange st cam vm l).zMin ≤ (lightClusterRange st cam vm l).zMax
      ∧ (lightClusterRange st cam vm l).zMax ≤ (st.zSlices : ℤ))
  ∧ (lightClusterRange st cam vm l).zMin = (lightClusterRange st cam vm l).zMax
  ∧ populateLight st (lightClusterRange st cam vm l) i buf = buf := by
  obtain ⟨hwx, hwy, hwz⟩ := lightClusterRange_wf st cam vm l
  have hbb : lightBBMax l = lightBBMin l := by
    unfold lightBBMax lightBBMin
    rw [hr]
    norm_num
  have hzz : lightZFar vm l = lightZNear vm l := by
    unfold lightZFar lightZNear lightViewBBMax lightViewBBMin
    rw [hbb]
  have hnzq : (0 : ℚ) < (st.zSlices : ℚ) := by exact_mod_cast hnz
  have hD : 0 < zStepOf cam st.zSlices := div_pos (by linarith) hnzq
  have hzeq : (lightClusterRange st cam vm l).zMin
      = (lightClusterRange st cam vm l).zMax := by
    show (finalAxis ⌊lightZNear vm l / zStepOf cam st.zSlices⌋
        ⌈lightZFar vm l / zStepOf cam st.zSlices⌉ st.zSlices).1
      = (finalAxis ⌊lightZNear vm l / zStepOf cam st.zSlices⌋
        ⌈lightZFar vm l / zStepOf cam st.zSlices⌉ st.zSlices).2
    rw [hzz]
    rcases hd with hd | hd
    · have hq : lightZNear vm l / zStepOf cam st.zSlices ≤ 0 :=
        div_nonpos_iff.mpr (Or.inr ⟨hd, hD.le⟩)
      have hcl : ⌈lightZNear vm l / zStepOf cam st.zSlices⌉ ≤ 0 :=
        Int.ceil_le.mpr (by push_cast; linarith)
      exact finalAxis_eq_of_nonpos _ _ _ (Int.floor_nonpos hq) hcl
    · have hkey : (st.zSlices : ℚ) * zStepOf cam st.zSlices = cam.far - cam.near := by
        unfold zStepOf
        field_simp
      have hq : (st.zSlices : ℚ) ≤ lightZNear vm l / zStepOf cam st.zSlices := by
        rw [le_div_iff₀ hD, hkey]
        linarith
      have hfl : (st.zSlices : ℤ) ≤ ⌊lightZNear vm l / zStepOf cam st.zSlices⌋ :=
        Int.le_floor.mpr (by push_cast; linarith)
      have hcl : (st.zSlices : ℤ) ≤ ⌈lightZNear vm l / zStepOf cam st.zSlices⌉ :=
        le_trans hfl (Int.floor_le_ceil _)
      exact finalAxis_eq_of_ge _ _ _ hfl hcl
  exact ⟨hwx, hwy, hwz, hzeq, populateLight_of_empty st _ i buf hzeq⟩

/-- Witness for C6 amended: the radius-0 light behind the camera
contributes to no cluster. -/
theorem C6_amended_witness :
    populateLight gridA (lightClusterRange gridA cameraA matIdentity lightBehind) 0
      (fun _ => 0) = (fun _ => 0) :=
  (C6_amended gridA cameraA matIdentity lightBehind 0 (fun _ => 0) (by decide)
    (by decide) (by decide) (by decide) (Or.inl (by decide))).2.2.2.2

/-! ## Claim C7 -/

/-- Counterexample to C7: with the identity view matrix, cameraA and the
4x4x4 grid, growing the radius of a light at (0, 0, -15) from 0 to 10
RAISES the final zMin from 0 to 1 (the floor is taken of the min-corner
depth 25/24.75 > 1), so the assigned cluster range is not monotone in the
radius: the z-band [0,1) it occupied at radius 0 is lost at radius 10. -/
theorem C7_counterexample :
    lightC7a.position = lightC7b.position
  ∧ lightC7a.radius = 0 ∧ lightC7b.radius = 10
  ∧ (lightClusterRange gridA cameraA matIdentity lightC7a).zMin = 0
  ∧ (lightClusterRange gridA cameraA matIdentity lightC7b).zMin = 1 := by
  refine ⟨by decide, by decide, by decide, by decide, by decide⟩

lemma transformMat4_affine (m : Mat4) (v : Vec3)
    (h3 : m.m3 = 0) (h7 : m.m7 = 0) (h11 : m.m11 = 0) (h15 : m.m15 = 1) :
    transformMat4 m v = ⟨m.m0 * v.x + m.m4 * v.y + m.m8 * v.z + m.m12,
      m.m1 * v.x + m.m5 * v.y + m.m9 * v.z + m.m13,
      m.m2 * v.x + m.m6 * v.y + m.m10 * v.z + m.m14⟩ := by
  unfold transformMat4
  rw [h3, h7, h11, h15]
  norm_num

lemma finalAxis_mono (p1 q1 p2 q2 : ℤ) (dim : ℕ)
    (h1 : p1 ≤ q1) (h2 : p2 ≤ q2) (hp : p2 ≤ p1) (hq : q1 ≤ q2) :
    (finalAxis p2 q2 dim).1 ≤ (finalAxis p1 q1 dim).1
  ∧ (finalAxis p1 q1 dim).2 ≤ (finalAxis p2 q2 dim).2 := by
  simp only [finalAxis, clampClusterIndex]
  constructor <;> omega

lemma finalAxis_pre_mono (n : ℕ) (a1 b1 a2 b2 h1n h1f h2n h2f : ℚ)
    (h1n0 : h1n ≠ 0) (h1f0 : h1f ≠ 0) (h2n0 : h2n ≠ 0) (h2f0 : h2f ≠ 0)
    (hab1 : a1 ≤ b1) (hab2 : a2 ≤ b2) (ha : a2 ≤ a1) (hb : b1 ≤ b2) :
    (finalAxis (axisMinPre n a2 h2n) (axisMaxPre n b2 h2f) n).1
      ≤ (finalAxis (axisMinPre n a1 h1n) (axisMaxPre n b1 h1f) n).1
  ∧ (finalAxis (axisMinPre n a1 h1n) (axisMaxPre n b1 h1f) n).2
      ≤ (finalAxis (axisMinPre n a2 h2n) (axisMaxPre n b2 h2f) n).2 := by
  rw [axisMinPre_eq n a1 h1n h1n0, axisMinPre_eq n a2 h2n h2n0,
    axisMaxPre_eq n b1 h1f h1f0, axisMaxPre_eq n b2 h2f h2f0]
  refine finalAxis_mono _ _ _ _ n ?_ ?_ ?_ ?_
  · exact le_trans (Int.floor_mono (by linarith)) (Int.floor_le_ceil _)
  · exact le_trans (Int.floor_mono (by linarith)) (Int.floor_le_ceil _)
  · exact Int.floor_mono (by linarith)
  · exact Int.ceil_mono (by linarith)

lemma finalAxis_div_mono (n : ℕ) (zn1 zf1 zn2 zf2 D : ℚ) (hD : 0 < D)
    (h1 : zn1 ≤ zf1) (h2 : zn2 ≤ zf2) (hn : zn2 ≤ zn1) (hf : zf1 ≤ zf2) :
    (finalAxis ⌊zn2 / D⌋ ⌈zf2 / D⌉ n).1 ≤ (finalAxis ⌊zn1 / D⌋ ⌈zf1 / D⌉ n).1
  ∧ (finalAxis ⌊zn1 / D⌋ ⌈zf1 / D⌉ n).2 ≤ (finalAxis ⌊zn2 / D⌋ ⌈zf2 / D⌉ n).2 := by
  have hmono : ∀ u v : ℚ, u ≤ v → u / D ≤ v / D := fun u v huv =>
    (div_le_div_iff_of_pos_right hD).mpr huv
  exact finalAxis_mono _ _ _ _ n
    (le_trans (Int.floor_mono (hmono _ _ h1)) (Int.floor_le_ceil _))
    (le_trans (Int.floor_mono (hmono _ _ h2)) (Int.floor_le_ceil _))
    (Int.floor_mono (hmono _ _ hn))
    (Int.ceil_mono (hmono _ _ hf))

set_option maxHeartbeats 1000000 in
/-- C7 amended: the final cluster range IS monotone in the radius provided
the view transform is affine (w row (0,0,0,1)) and orientation-preserving
per axis in the sense that its x and y rows have nonnegative entry sums and
its z row a nonpositive entry sum (so growing the world-space box grows the
view-space extents in the direction each formula expects), the camera has
near < far and positive tan(fov/2) and aspect, and the light's min/max
corners stay in front of the camera.  The identity-view counterexample
violates the z-row condition, and there monotonicity indeed fails. -/
theorem C7_amended (st : BaseRenderer) (cam : Camera) (vm : Mat4) (p : Vec3)
    (r1 r2 : ℚ)
    (hw3 : vm.m3 = 0) (hw7 : vm.m7 = 0) (hw11 : vm.m11 = 0) (hw15 : vm.m15 = 1)
    (hsx : 0 ≤ vm.m0 + vm.m4 + vm.m8)
    (hsy : 0 ≤ vm.m1 + vm.m5 + vm.m9)
    (hsz : vm.m2 + vm.m6 + vm.m10 ≤ 0)
    (htan : 0 < cam.tanHalfFov) (hasp : 0 < cam.aspect)
    (hnf : cam.near < cam.far) (hnz : 0 < st.zSlices)
    (hr1 : 0 ≤ r1) (hr12 : r1 ≤ r2)
    (hzn : 0 < lightZNear vm ⟨p, r2⟩)
    (hzf : 0 < lightZFar vm ⟨p, r1⟩) :
    (lightClusterRange st cam vm ⟨p, r2⟩).xMin
      ≤ (lightClusterRange st cam vm ⟨p, r1⟩).xMin
  ∧ (lightClusterRange st cam vm ⟨p, r1⟩).xMax
      ≤ (lightClusterRange st cam vm ⟨p, r2⟩).xMax
  ∧ (lightClusterRange st cam vm ⟨p, r2⟩).yMin
      ≤ (lightClusterRange st cam vm ⟨p, r1⟩).yMin
  ∧ (lightClusterRange st cam vm ⟨p, r1⟩).yMax
      ≤ (lightClusterRange st cam vm ⟨p, r2⟩).yMax
  ∧ (lightClusterRange st cam vm ⟨p, r2⟩).zMin
      ≤ (lightClusterRange st cam vm ⟨p, r1⟩).zMin
  ∧ (lightClusterRange st cam vm ⟨p, r1⟩).zMax
      ≤ (lightClusterRange st cam vm ⟨p, r2⟩).zMax := by
  have hr2 : 0 ≤ r2 := le_trans hr1 hr12
  have eA : ∀ r : ℚ, lightViewBBMin vm ⟨p, r⟩ =
      ⟨vm.m0 * (p.x - r) + vm.m4 * (p.y - r) + vm.m8 * (p.z - r) + vm.m12,
       vm.m1 * (p.x - r) + vm.m5 * (p.y - r) + vm.m9 * (p.z - r) + vm.m13,
       vm.m2 * (p.x - r) + vm.m6 * (p.y - r) + vm.m10 * (p.z - r) + vm.m14⟩ :=
    fun r => transformMat4_affine vm ⟨p.x - r, p.y - r, p.z - r⟩ hw3 hw7 hw11 hw15
  have eB : ∀ r : ℚ, lightViewBBMax vm ⟨p, r⟩ =
      ⟨vm.m0 * (p.x + r) + vm.m4 * (p.y + r) + vm.m8 * (p.z + r) + vm.m12,
       vm.m1 * (p.x + r) + vm.m5 * (p.y + r) + vm.m9 * (p.z + r) + vm.m13,
       vm.m2 * (p.x + r) + vm.m6 * (p.y + r) + vm.m10 * (p.z + r) + vm.m14⟩ :=
    fun r => transformMat4_affine vm ⟨p.x + r, p.y + r, p.z + r⟩ hw3 hw7 hw11 hw15
  have kx : 0 ≤ (r2 - r1) * (vm.m0 + vm.m4 + vm.m8) :=
    mul_nonneg (sub_nonneg.mpr hr12) hsx
  have ky : 0 ≤ (r2 - r1) * (vm.m1 + vm.m5 + vm.m9) :=
    mul_nonneg (sub_nonneg.mpr hr12) hsy
  have kz : (r2 - r1) * (vm.m2 + vm.m6 + vm.m10) ≤ 0 :=
    mul_nonpos_iff.mpr (Or.inl ⟨sub_nonneg.mpr hr12, hsz⟩)
  have kx1 : 0 ≤ r1 * (vm.m0 + vm.m4 + vm.m8) := mul_nonneg hr1 hsx
  have kx2 : 0 ≤ r2 * (vm.m0 + vm.m4 + vm.m8) := mul_nonneg hr2 hsx
  have ky1 : 0 ≤ r1 * (vm.m1 + vm.m5 + vm.m9) := mul_nonneg hr1 hsy
  have ky2 : 0 ≤ r2 * (vm.m1 + vm.m5 + vm.m9) := mul_nonneg hr2 hsy
  have kz1 : r1 * (vm.m2 + vm.m6 + vm.m10) ≤ 0 :=
    mul_nonpos_iff.mpr (Or.inl ⟨hr1, hsz⟩)
  have kz2 : r2 * (vm.m2 + vm.m6 + vm.m10) ≤ 0 :=
    mul_nonpos_iff.mpr (Or.inl ⟨hr2, hsz⟩)
  have ezn : ∀ r : ℚ, lightZNear vm ⟨p, r⟩ =
      -(vm.m2 * (p.x - r) + vm.m6 * (p.y - r) + vm.m10 * (p.z - r) + vm.m14) := by
    intro r
    unfold lightZNear
    rw [eA r]
  have ezf : ∀ r : ℚ, lightZFar vm ⟨p, r⟩ =
      -(vm.m2 * (p.x + r) + vm.m6 * (p.y + r) + vm.m10 * (p.z + r) + vm.m14) := by
    intro r
    unfold lightZFar
    rw [eB r]
  have hzn21 : lightZNear vm ⟨p, r2⟩ ≤ lightZNear vm ⟨p, r1⟩ := by
    rw [ezn r1, ezn r2]
    linarith [kz]
  have hzf12 : lightZFar vm ⟨p, r1⟩ ≤ lightZFar vm ⟨p, r2⟩ := by
    rw [ezf r1, ezf r2]
    linarith [kz]
  have hznf1 : lightZNear vm ⟨p, r1⟩ ≤ lightZFar vm ⟨p, r1⟩ := by
    rw [ezn r1, ezf r1]
    linarith [kz1]
  have hznf2 : lightZNear vm ⟨p, r2⟩ ≤ lightZFar vm ⟨p, r2⟩ := by
    rw [ezn r2, ezf r2]
    linarith [kz2]
  have hzn1 : 0 < lightZNear vm ⟨p, r1⟩ := lt_of_lt_of_le hzn hzn21
  have hzf2 : 0 < lightZFar vm ⟨p, r2⟩ := lt_of_lt_of_le hzf hzf12
  have hYn1 : halfYLenNearOf cam vm ⟨p, r1⟩ ≠ 0 := by
    unfold halfYLenNearOf
    exact ne_of_gt (mul_pos hzn1 htan)
  have hYn2 : halfYLenNearOf cam vm ⟨p, r2⟩ ≠ 0 := by
    unfold halfYLenNearOf
    exact ne_of_gt (mul_pos hzn htan)
  have hYf1 : halfYLenFarOf cam vm ⟨p, r1⟩ ≠ 0 := by
    unfold halfYLenFarOf
    exact ne_of_gt (mul_pos hzf htan)
  have hYf2 : halfYLenFarOf cam vm ⟨p, r2⟩ ≠ 0 := by
    unfold halfYLenFarOf
    exact ne_of_gt (mul_pos hzf2 htan)
  have hXn1 : halfXLenNearOf cam vm ⟨p, r1⟩ ≠ 0 := by
    unfold halfXLenNearOf halfYLenNearOf
    exact ne_of_gt (mul_pos (mul_pos hzn1 htan) hasp)
  have hXn2 : halfXLenNearOf cam vm ⟨p, r2⟩ ≠ 0 := by
    unfold halfXLenNearOf halfYLenNearOf
    exact ne_of_gt (mul_pos (mul_pos hzn htan) hasp)
  have hXf1 : halfXLenFarOf cam vm ⟨p, r1⟩ ≠ 0 := by
    unfold halfXLenFarOf halfYLenFarOf
    exact ne_of_gt (mul_pos (mul_pos hzf htan) hasp)
  have hXf2 : halfXLenFarOf cam vm ⟨p, r2⟩ ≠ 0 := by
    unfold halfXLenFarOf halfYLenFarOf
    exact ne_of_gt (mul_pos (mul_pos hzf2 htan) hasp)
  have hax : (lightViewBBMin vm ⟨p, r2⟩).x ≤ (lightViewBBMin vm ⟨p, r1⟩).x := by
    rw [eA r1, eA r2]
    dsimp only
    linarith [kx]
  have hbx : (lightViewBBMax vm ⟨p, r1⟩).x ≤ (lightViewBBMax vm ⟨p, r2⟩).x := by
    rw [eB r1, eB r2]
    dsimp only
    linarith [kx]
  have habx1 : (lightViewBBMin vm ⟨p, r1⟩).x ≤ (lightViewBBMax vm ⟨p, r1⟩).x := by
    rw [eA r1, eB r1]
    dsimp only
    linarith [kx1]
  have habx2 : (lightViewBBMin vm ⟨p, r2⟩).x ≤ (lightViewBBMax vm ⟨p, r2⟩).x := by
    rw [eA r2, eB r2]
    dsimp only
    linarith [kx2]
  have hay : (lightViewBBMin vm ⟨p, r2⟩).y ≤ (lightViewBBMin vm ⟨p, r1⟩).y := by
    rw [eA r1, eA r2]
    dsimp only
    linarith [ky]
  have hby : (lightViewBBMax vm ⟨p, r1⟩).y ≤ (lightViewBBMax vm ⟨p, r2⟩).y := by
    rw [eB r1, eB r2]
    dsimp only
    linarith [ky]
  have haby1 : (lightViewBBMin vm ⟨p, r1⟩).y ≤ (lightViewBBMax vm ⟨p, r1⟩).y := by
    rw [eA r1, eB r1]
    dsimp only
    linarith [ky1]
  have haby2 : (lightViewBBMin vm ⟨p, r2⟩).y ≤ (lightViewBBMax vm ⟨p, r2⟩).y := by
    rw [eA r2, eB r2]
    dsimp only
    linarith [ky2]
  have hD : 0 < zStepOf cam st.zSlices := by
    have hq : (0 : ℚ) < (st.zSlices : ℚ) := by exact_mod_cast hnz
    exact div_pos (by linarith) hq
  have hxm := finalAxis_pre_mono st.xSlices
    (lightViewBBMin vm ⟨p, r1⟩).x (lightViewBBMax vm ⟨p, r1⟩).x
    (lightViewBBMin vm ⟨p, r2⟩).x (lightViewBBMax vm ⟨p, r2⟩).x
    (halfXLenNearOf cam vm ⟨p, r1⟩) (halfXLenFarOf cam vm ⟨p, r1⟩)
    (halfXLenNearOf cam vm ⟨p, r2⟩) (halfXLenFarOf cam vm ⟨p, r2⟩)
    hXn1 hXf1 hXn2 hXf2 habx1 habx2 hax hbx
  have hym := finalAxis_pre_mono st.ySlices
    (lightViewBBMin vm ⟨p, r1⟩).y (lightViewBBMax vm ⟨p, r1⟩).y
    (lightViewBBMin vm ⟨p, r2⟩).y (lightViewBBMax vm ⟨p, r2⟩).y
    (halfYLenNearOf cam vm ⟨p, r1⟩) (halfYLenFarOf cam vm ⟨p, r1⟩)
    (halfYLenNearOf cam vm ⟨p, r2⟩) (halfYLenFarOf cam vm ⟨p, r2⟩)
    hYn1 hYf1 hYn2 hYf2 haby1 haby2 hay hby
  have hzm := finalAxis_div_mono st.zSlices
    (lightZNear vm ⟨p, r1⟩) (lightZFar vm ⟨p, r1⟩)
    (lightZNear vm ⟨p, r2⟩) (lightZFar vm ⟨p, r2⟩)
    (zStepOf cam st.zSlices) hD hznf1 hznf2 hzn21 hzf12
  exact ⟨hxm.1, hxm.2, hym.1, hym.2, hzm.1, hzm.2⟩

/-- A view matrix that negates z (looks backward along +z): its z row sum is
-1 <= 0, its x and y row sums are 1 >= 0. -/
def matFlipZ : Mat4 := ⟨1, 0, 0, 0, 0, 1, 0, 0, 0, 0, -1, 0, 0, 0, 0, 1⟩

/-- Witness for C7 amended: under matFlipZ a light at world (0, 0, 5)
(view depth 5) with radii 0 <= 1 has monotone final bounds. -/
theorem C7_amended_witness :
    (lightClusterRange gridA cameraA matFlipZ ⟨⟨0, 0, 5⟩, 1⟩).xMin
      ≤ (lightClusterRange gridA cameraA matFlipZ ⟨⟨0, 0, 5⟩, 0⟩).xMin
  ∧ (lightClusterRange gridA cameraA matFlipZ ⟨⟨0, 0, 5⟩, 0⟩).xMax
      ≤ (lightClusterRange gridA cameraA matFlipZ ⟨⟨0, 0, 5⟩, 1⟩).xMax
  ∧ (lightClusterRange gridA cameraA matFlipZ ⟨⟨0, 0, 5⟩, 1⟩).yMin
      ≤ (lightClusterRange gridA cameraA matFlipZ ⟨⟨0, 0, 5⟩, 0⟩).yMin
  ∧ (lightClusterRange gridA cameraA matFlipZ ⟨⟨0, 0, 5⟩, 0⟩).yMax
      ≤ (lightClusterRange gridA cameraA matFlipZ ⟨⟨0, 0, 5⟩, 1⟩).yMax
  ∧ (lightClusterRange gridA cameraA matFlipZ ⟨⟨0, 0, 5⟩, 1⟩).zMin
      ≤ (lightClusterRange gridA cameraA matFlipZ ⟨⟨0, 0, 5⟩, 0⟩).zMin
  ∧ (lightClusterRange gridA cameraA matFlipZ ⟨⟨0, 0, 5⟩, 0⟩).zMax
      ≤ (lightClusterRange gridA cameraA matFlipZ ⟨⟨0, 0, 5⟩, 1⟩).zMax :=
  C7_amended gridA cameraA matFlipZ ⟨0, 0, 5⟩ 0 1 (by decide) (by decide)
    (by decide) (by decide) (by decide) (by decide) (by decide) (by decide)
    (by decide) (by decide) (by decide) (by decide) (by decide) (by decide)
    (by decide)

/-! ## Buffer and reset-loop reasoning -/

lemma elementSize_eq : elementSize = 126 := by decide

lemma Buffer.write_self (b : Buffer) (i : ℕ) (v : ℚ) : (b.write i v) i = v := by
  simp [Buffer.write]

lemma Buffer.write_other (b : Buffer) (i : ℕ) (v : ℚ) (j : ℕ) (h : j ≠ i) :
    (b.write i v) j = b j := by
  simp [Buffer.write, h]

/-- The reset writes as a single flat list of offsets, in loop order. -/
def resetOffsets (st : BaseRenderer) : List ℕ :=
  (List.range st.zSlices).flatMap (fun z =>
    (List.range st.ySlices).flatMap (fun y =>
      (List.range st.xSlices).map (fun x =>
        bufferIndex (flatten st.xSlices st.ySlices x y z) 0)))

/-- Folding 0-writes over a list of offsets. -/
def writeZeros (L : List ℕ) (buf : Buffer) : Buffer :=
  L.foldl (fun b o => b.write o 0) buf

lemma foldl_flatMap {α β γ : Type} (f : γ → List α) (g : β → α → β) (L : List γ)
    (b : β) :
    (L.flatMap f).foldl g b = L.foldl (fun acc c => (f c).foldl g acc) b := by
  induction L generalizing b with
  | nil => rfl
  | cons a t ih =>
      rw [List.flatMap_cons, List.foldl_append, List.foldl_cons, ih]

lemma writeZeros_apply (L : List ℕ) (buf : Buffer) (p : ℕ) :
    writeZeros L buf p = if p ∈ L then 0 else buf p := by
  induction L generalizing buf with
  | nil => simp [writeZeros]
  | cons a t ih =>
      show writeZeros t (buf.write a 0) p = _
      rw [ih]
      by_cases hp : p = a
      · subst hp
        by_cases hmem : p ∈ t <;> simp [hmem, Buffer.write]
      · simp [Buffer.write, hp, List.mem_cons]

lemma resetLoop_eq_writeZeros (st : BaseRenderer) (buf : Buffer) :
    resetLoop st buf = writeZeros (resetOffsets st) buf := by
  unfold resetLoop resetOffsets writeZeros
  simp only [foldl_flatMap, List.foldl_map]

lemma resetLoop_apply (st : BaseRenderer) (buf : Buffer) (p : ℕ) :
    resetLoop st buf p = if p ∈ resetOffsets st then 0 else buf p := by
  rw [resetLoop_eq_writeZeros, writeZeros_apply]

lemma mem_resetOffsets (st : BaseRenderer) (p : ℕ) :
    p ∈ resetOffsets st ↔ ∃ z < st.zSlices, ∃ y < st.ySlices, ∃ x < st.xSlices,
      bufferIndex (flatten st.xSlices st.ySlices x y z) 0 = p := by
  unfold resetOffsets
  simp [List.mem_flatMap, List.mem_map, List.mem_range]

/-! ## Claim C9 -/

/-- C9: the per-frame reset sets every in-grid cluster's count slot to 0, is
idempotent (resetting twice gives exactly the buffer reset once), and
modifies no offset that is not some cluster's count slot - in particular no
light-index slot. -/
theorem C9_reset_idempotent (st : BaseRenderer) (buf : Buffer) :
    (∀ x y z : ℕ, x < st.xSlices → y < st.ySlices → z < st.zSlices →
      clusterCount (resetLoop st buf) (flatten st.xSlices st.ySlices x y z) = 0)
  ∧ resetLoop st (resetLoop st buf) = resetLoop st buf
  ∧ (∀ p : ℕ, (∀ c : ℕ, p ≠ bufferIndex c 0) → resetLoop st buf p = buf p) := by
  refine ⟨?_, ?_, ?_⟩
  · intro x y z hx hy hz
    unfold clusterCount
    rw [resetLoop_apply, if_pos]
    rw [mem_resetOffsets]
    exact ⟨z, hz, y, hy, x, hx, rfl⟩
  · funext p
    simp only [resetLoop_apply]
    by_cases hmem : p ∈ resetOffsets st <;> simp [hmem]
  · intro p hp
    rw [resetLoop_apply, if_neg]
    rw [mem_resetOffsets]
    rintro ⟨z, hz, y, hy, x, hx, he⟩
    exact hp (flatten st.xSlices st.ySlices x y z) he.symm

/-- Witness for C9 on the 4x4x4 grid and the constant-5 buffer. -/
theorem C9_witness :
    clusterCount (resetLoop gridA (fun _ => 5)) (flatten 4 4 1 2 3) = 0
  ∧ resetLoop gridA (resetLoop gridA (fun _ => 5)) = resetLoop gridA (fun _ => 5) :=
  ⟨(C9_reset_idempotent gridA (fun _ => 5)).1 1 2 3 (by decide) (by decide)
      (by decide),
   (C9_reset_idempotent gridA (fun _ => 5)).2.1⟩

/-! ## addLightToCluster reasoning -/

lemma addLightToCluster_eq (i c : ℕ) (buf : Buffer) :
    addLightToCluster i c buf =
      if buf (bufferIndex c 0) < (MAX_LIGHTS_PER_CLUSTER : ℚ) then
        (buf.write (bufferIndex c 0) (buf (bufferIndex c 0) + 1)).write
          (bufferIndex c (⌊(buf (bufferIndex c 0) + 1) / 4⌋).toNat
            + (⌊jsMod (buf (bufferIndex c 0) + 1) 4⌋).toNat) (i : ℚ)
      else buf := by
  unfold addLightToCluster
  by_cases h : buf (bufferIndex c 0) < (MAX_LIGHTS_PER_CLUSTER : ℚ) <;>
    simp [h, Buffer.write_self]

lemma pixelNum_le (q : ℚ) (hq : q < (MAX_LIGHTS_PER_CLUSTER : ℚ)) :
    (⌊(q + 1) / 4⌋).toNat ≤ 125 := by
  rw [Int.toNat_le]
  have h4 : (0 : ℚ) < 4 := by norm_num
  have hq' : q < 500 := by
    have : ((MAX_LIGHTS_PER_CLUSTER : ℕ) : ℚ) = 500 := by norm_num [MAX_LIGHTS_PER_CLUSTER]
    linarith [this ▸ hq]
  have : (q + 1) / 4 < 126 := by
    rw [div_lt_iff₀ h4]
    linarith
  have hfl : ⌊(q + 1) / 4⌋ < 126 := Int.floor_lt.mpr (by push_cast; linarith)
  omega

lemma pixelComponent_le (q : ℚ) : (⌊jsMod q 4⌋).toNat ≤ 3 := by
  rw [Int.toNat_le]
  unfold jsMod truncQ
  by_cases h : 0 ≤ q / 4
  · rw [if_pos h]
    have h1 : (⌊q / 4⌋ : ℚ) ≤ q / 4 := Int.floor_le _
    have h2 : q / 4 < ⌊q / 4⌋ + 1 := Int.lt_floor_add_one _
    have hlt : q - 4 * (⌊q / 4⌋ : ℚ) < 4 := by linarith
    have : ⌊q - 4 * ((⌊q / 4⌋ : ℤ) : ℚ)⌋ < 4 := Int.floor_lt.mpr (by push_cast; linarith)
    omega
  · rw [if_neg h]
    have h1 : q / 4 ≤ (⌈q / 4⌉ : ℚ) := Int.le_ceil _
    have hle : q - 4 * (⌈q / 4⌉ : ℚ) ≤ 0 := by linarith
    have : ⌊q - 4 * ((⌈q / 4⌉ : ℤ) : ℚ)⌋ ≤ 0 := by
      have := Int.floor_le_floor (α := ℚ) hle
      simpa using le_trans this (by norm_num)
    omega

lemma addLight_apply_outside (i c : ℕ) (buf : Buffer) (p : ℕ)
    (hp : p < c * (elementSize * 4) ∨ c * (elementSize * 4) + elementSize * 4 ≤ p) :
    addLightToCluster i c buf p = buf p := by
  rw [addLightToCluster_eq]
  by_cases h : buf (bufferIndex c 0) < (MAX_LIGHTS_PER_CLUSTER : ℚ)
  · rw [if_pos h]
    obtain ⟨q, hq⟩ : ∃ q, buf (bufferIndex c 0) = q := ⟨_, rfl⟩
    rw [hq] at h ⊢
    have hpn := pixelNum_le q h
    have hpc := pixelComponent_le (q + 1)
    rw [elementSize_eq] at hp
    have h2 : p ≠ bufferIndex c (⌊(q + 1) / 4⌋).toNat + (⌊jsMod (q + 1) 4⌋).toNat := by
      unfold bufferIndex
      rw [elementSize_eq]
      omega
    have h1 : p ≠ bufferIndex c 0 := by
      unfold bufferIndex
      rw [elementSize_eq]
      omega
    rw [Buffer.write_other _ _ _ _ h2, Buffer.write_other _ _ _ _ h1]
  · rw [if_neg h]

lemma addLight_other_obs (i c c' j : ℕ) (buf : Buffer) (hne : c ≠ c')
    (hj : j < elementSize * 4) :
    addLightToCluster i c' buf (bufferIndex c 0 + j)
      = buf (bufferIndex c 0 + j) := by
  apply addLight_apply_outside
  unfold bufferIndex
  rw [elementSize_eq] at hj ⊢
  rcases Nat.lt_or_ge c c' with hlt | hge
  · left
    omega
  · right
    have hgt : c' < c := by omega
    omega

lemma floor_natCast_div_four (m : ℕ) : ⌊((m : ℚ)) / 4⌋ = ((m / 4 : ℕ) : ℤ) := by
  have h := Rat.floor_natCast_div_natCast m 4
  simpa using h

lemma jsMod_natCast_four (m : ℕ) : ⌊jsMod ((m : ℚ)) 4⌋ = ((m % 4 : ℕ) : ℤ) := by
  unfold jsMod truncQ
  have hnn : (0 : ℚ) ≤ (m : ℚ) / 4 := by positivity
  rw [if_pos hnn, floor_natCast_div_four]
  have he : (m : ℚ) - 4 * (((m / 4 : ℕ) : ℤ) : ℚ) = ((m % 4 : ℕ) : ℚ) := by
    have hd : 4 * (m / 4) + m % 4 = m := Nat.div_add_mod m 4
    have h2 : ((4 * (m / 4) + m % 4 : ℕ) : ℚ) = (m : ℚ) := by rw [hd]
    push_cast at h2
    rw [Int.cast_natCast]
    linarith
  rw [he, Int.floor_natCast]

lemma bufferIndex_group (c n : ℕ) :
    bufferIndex c ((n + 1) / 4) + (n + 1) % 4 = bufferIndex c 0 + (n + 1) := by
  unfold bufferIndex
  have hd := Nat.div_add_mod (n + 1) 4
  omega

lemma addLight_step (i c n : ℕ) (buf : Buffer)
    (hcnt : buf (bufferIndex c 0) = (n : ℚ)) (hlt : n < MAX_LIGHTS_PER_CLUSTER) :
    clusterCount (addLightToCluster i c buf) c = ((n + 1 : ℕ) : ℚ)
  ∧ clusterSlot (addLightToCluster i c buf) c (n + 1) = (i : ℚ)
  ∧ ∀ j : ℕ, 1 ≤ j → j ≠ n + 1 →
      clusterSlot (addLightToCluster i c buf) c j = clusterSlot buf c j := by
  have hguard : buf (bufferIndex c 0) < (MAX_LIGHTS_PER_CLUSTER : ℚ) := by
    rw [hcnt]
    exact_mod_cast hlt
  have hval : buf (bufferIndex c 0) + 1 = ((n + 1 : ℕ) : ℚ) := by
    rw [hcnt]
    push_cast
    ring
  have hoff : bufferIndex c (⌊(buf (bufferIndex c 0) + 1) / 4⌋).toNat
      + (⌊jsMod (buf (bufferIndex c 0) + 1) 4⌋).toNat = bufferIndex c 0 + (n + 1) := by
    rw [hval, floor_natCast_div_four, jsMod_natCast_four, Int.toNat_natCast,
      Int.toNat_natCast]
    exact bufferIndex_group c n
  rw [addLightToCluster_eq, if_pos hguard]
  refine ⟨?_, ?_, ?_⟩
  · unfold clusterCount
    rw [hoff, Buffer.write_other _ _ _ _ (by omega), Buffer.write_self, hval]
  · unfold clusterSlot
    rw [hoff, Buffer.write_self]
  · intro j hj1 hjn
    unfold clusterSlot
    rw [hoff, Buffer.write_other _ _ _ _ (by omega),
      Buffer.write_other _ _ _ _ (by omega)]

lemma addLight_noop (i c n : ℕ) (buf : Buffer)
    (hcnt : buf (bufferIndex c 0) = (n : ℚ)) (hge : MAX_LIGHTS_PER_CLUSTER ≤ n) :
    addLightToCluster i c buf = buf := by
  rw [addLightToCluster_eq, if_neg]
  rw [hcnt]
  exact not_lt.mpr (by exact_mod_cast hge)

lemma addLight_congr_elem (i c : ℕ) (b1 b2 : Buffer)
    (h : ∀ j, j < elementSize * 4 →
      b1 (bufferIndex c 0 + j) = b2 (bufferIndex c 0 + j)) :
    ∀ j, j < elementSize * 4 →
      addLightToCluster i c b1 (bufferIndex c 0 + j)
        = addLightToCluster i c b2 (bufferIndex c 0 + j) := by
  intro j hj
  have h0 : b1 (bufferIndex c 0) = b2 (bufferIndex c 0) := by
    have h0' := h 0 (by rw [elementSize_eq]; omega)
    simpa using h0'
  rw [addLightToCluster_eq, addLightToCluster_eq, h0]
  by_cases hg : b2 (bufferIndex c 0) < (MAX_LIGHTS_PER_CLUSTER : ℚ)
  · rw [if_pos hg, if_pos hg]
    unfold Buffer.write
    split_ifs with hc1 hc2
    · rfl
    · rfl
    · exact h j hj
  · rw [if_neg hg, if_neg hg]
    exact h j hj

/-! ## Population loop as a flat fold over visited clusters -/

/-- The population fold body over a list of flat cluster indices. -/
def foldAdd (i : ℕ) (L : List ℕ) (buf : Buffer) : Buffer :=
  L.foldl (fun b c => addLightToCluster i c b) buf

/-- The flat cluster indices visited by the triple population loop for one
light, in loop order. -/
def visitList (st : BaseRenderer) (r : ClusterRange) : List ℕ :=
  (intRange r.zMin r.zMax).flatMap (fun z =>
    (intRange r.yMin r.yMax).flatMap (fun y =>
      (intRange r.xMin r.xMax).map (fun x =>
        (x + y * (st.xSlices : ℤ) + z * (st.xSlices : ℤ) * (st.ySlices : ℤ)).toNat)))

lemma populateLight_eq_foldAdd (st : BaseRenderer) (r : ClusterRange) (i : ℕ)
    (buf : Buffer) : populateLight st r i buf = foldAdd i (visitList st r) buf := by
  unfold populateLight visitList foldAdd
  simp only [foldl_flatMap, List.foldl_map]

lemma mem_intRange (v a b : ℤ) : v ∈ intRange a b ↔ a ≤ v ∧ v < b := by
  unfold intRange
  simp only [List.mem_map, List.mem_range]
  constructor
  · rintro ⟨k, hk, rfl⟩
    omega
  · rintro ⟨h1, h2⟩
    exact ⟨(v - a).toNat, by omega, by omega⟩

lemma intRange_nodup (a b : ℤ) : (intRange a b).Nodup := by
  unfold intRange
  refine List.Nodup.map ?_ (List.nodup_range _)
  intro k1 k2 he
  dsimp only at he
  omega

lemma toNat_flat_eq (nx ny : ℕ) (x y z : ℤ) (hx0 : 0 ≤ x) (hy0 : 0 ≤ y)
    (hz0 : 0 ≤ z) :
    (x + y * (nx : ℤ) + z * (nx : ℤ) * (ny : ℤ)).toNat
      = flatten nx ny x.toNat y.toNat z.toNat := by
  have e : x + y * (nx : ℤ) + z * (nx : ℤ) * (ny : ℤ)
      = ((x.toNat + y.toNat * nx + z.toNat * nx * ny : ℕ) : ℤ) := by
    push_cast [Int.toNat_of_nonneg hx0, Int.toNat_of_nonneg hy0,
      Int.toNat_of_nonneg hz0]
    ring
  rw [e, Int.toNat_natCast]
  rfl

lemma mem_visitList (st : BaseRenderer) (r : ClusterRange) (cx cy cz : ℕ)
    (hcx : cx < st.xSlices) (hcy : cy < st.ySlices)
    (hx0 : 0 ≤ r.xMin) (hxn : r.xMax ≤ (st.xSlices : ℤ))
    (hy0 : 0 ≤ r.yMin) (hyn : r.yMax ≤ (st.ySlices : ℤ))
    (hz0 : 0 ≤ r.zMin) :
    flatten st.xSlices st.ySlices cx cy cz ∈ visitList st r
      ↔ inRangeB r cx cy cz = true := by
  unfold visitList inRangeB
  simp only [List.mem_flatMap, List.mem_map, mem_intRange, decide_eq_true_eq]
  constructor
  · rintro ⟨z, hz, y, hy, x, hx, he⟩
    have hx0' : 0 ≤ x := le_trans hx0 hx.1
    have hy0' : 0 ≤ y := le_trans hy0 hy.1
    have hz0' : 0 ≤ z := le_trans hz0 hz.1
    rw [toNat_flat_eq _ _ _ _ _ hx0' hy0' hz0'] at he
    have hxb : x.toNat < st.xSlices := by omega
    have hyb : y.toNat < st.ySlices := by omega
    obtain ⟨e1, e2, e3⟩ :=
      flatten_inj st.xSlices st.ySlices _ _ _ cx cy cz hxb hcx hyb hcy he
    refine ⟨by omega, by omega, by omega, by omega, by omega, by omega⟩
  · rintro ⟨h1, h2, h3, h4, h5, h6⟩
    refine ⟨(cz : ℤ), ⟨h5, h6⟩, (cy : ℤ), ⟨h3, h4⟩, (cx : ℤ), ⟨h1, h2⟩, ?_⟩
    rw [toNat_flat_eq _ _ _ _ _ (Int.natCast_nonneg cx) (Int.natCast_nonneg cy)
      (Int.natCast_nonneg cz)]
    simp

lemma nodup_visitList (st : BaseRenderer) (r : ClusterRange)
    (hx0 : 0 ≤ r.xMin) (hxn : r.xMax ≤ (st.xSlices : ℤ))
    (hy0 : 0 ≤ r.yMin) (hyn : r.yMax ≤ (st.ySlices : ℤ))
    (hz0 : 0 ≤ r.zMin) :
    (visitList st r).Nodup := by
  unfold visitList
  rw [List.nodup_flatMap]
  constructor
  · intro z hz
    rw [List.nodup_flatMap]
    constructor
    · intro y hy
      refine List.Nodup.map_on ?_ (intRange_nodup _ _)
      intro x1 hx1 x2 hx2 he
      rw [mem_intRange] at hx1 hx2 hy hz
      rw [toNat_flat_eq _ _ _ _ _ (by omega) (by omega) (by omega),
        toNat_flat_eq _ _ _ _ _ (by omega) (by omega) (by omega)] at he
      obtain ⟨e1, e2, e3⟩ := flatten_inj st.xSlices st.ySlices _ _ _ _ _ _
        (by omega) (by omega) (by omega) (by omega) he
      omega
    · refine List.Pairwise.imp_of_mem ?_ (intRange_nodup r.yMin r.yMax)
      intro y1 y2 hy1 hy2 hne a ha1 ha2
      simp only [List.mem_map, mem_intRange] at ha1 ha2
      obtain ⟨x1, hx1, he1⟩ := ha1
      obtain ⟨x2, hx2, he2⟩ := ha2
      rw [mem_intRange] at hy1 hy2 hz
      rw [toNat_flat_eq _ _ _ _ _ (by omega) (by omega) (by omega)] at he1
      rw [toNat_flat_eq _ _ _ _ _ (by omega) (by omega) (by omega)] at he2
      rw [← he2] at he1
      obtain ⟨e1, e2, e3⟩ := flatten_inj st.xSlices st.ySlices _ _ _ _ _ _
        (by omega) (by omega) (by omega) (by omega) he1
      exact hne (by omega)
  · refine List.Pairwise.imp_of_mem ?_ (intRange_nodup r.zMin r.zMax)
    intro z1 z2 hz1 hz2 hne a ha1 ha2
    simp only [List.mem_flatMap, List.mem_map, mem_intRange] at ha1 ha2
    obtain ⟨y1, hy1, x1, hx1, he1⟩ := ha1
    obtain ⟨y2, hy2, x2, hx2, he2⟩ := ha2
    rw [mem_intRange] at hz1 hz2
    rw [toNat_flat_eq _ _ _ _ _ (by omega) (by omega) (by omega)] at he1
    rw [toNat_flat_eq _ _ _ _ _ (by omega) (by omega) (by omega)] at he2
    rw [← he2] at he1
    obtain ⟨e1, e2, e3⟩ := flatten_inj st.xSlices st.ySlices _ _ _ _ _ _
      (by omega) (by omega) (by omega) (by omega) he1
    exact hne (by omega)

lemma foldAdd_not_mem (i : ℕ) (L : List ℕ) (c : ℕ) :
    ∀ buf : Buffer, c ∉ L → ∀ j, j < elementSize * 4 →
      foldAdd i L buf (bufferIndex c 0 + j) = buf (bufferIndex c 0 + j) := by
  induction L with
  | nil =>
      intro buf h j hj
      rfl
  | cons a t ih =>
      intro buf h j hj
      simp only [List.mem_cons, not_or] at h
      show foldAdd i t (addLightToCluster i a buf) _ = _
      rw [ih (addLightToCluster i a buf) h.2 j hj,
        addLight_other_obs i c a j buf h.1 hj]

lemma foldAdd_obs (i : ℕ) (L : List ℕ) (c : ℕ) :
    ∀ buf : Buffer, L.count c ≤ 1 → ∀ j, j < elementSize * 4 →
      foldAdd i L buf (bufferIndex c 0 + j)
        = (if c ∈ L then addLightToCluster i c buf else buf)
            (bufferIndex c 0 + j) := by
  induction L with
  | nil =>
      intro buf hcnt j hj
      simp [foldAdd]
  | cons a t ih =>
      intro buf hcnt j hj
      show foldAdd i t (addLightToCluster i a buf) _ = _
      by_cases hca : c = a
      · subst hca
        have hct : c ∉ t := by
          rw [List.count_cons_self] at hcnt
          exact List.count_eq_zero.mp (by omega)
        rw [foldAdd_not_mem i t c (addLightToCluster i c buf) hct j hj,
          if_pos (List.mem_cons_self c t)]
      · have ht : t.count c ≤ 1 := by
          rw [List.count_cons_of_ne hca] at hcnt
          exact hcnt
        rw [ih (addLightToCluster i a buf) ht j hj]
        by_cases hct : c ∈ t
        · rw [if_pos hct, if_pos (List.mem_cons_of_mem a hct)]
          exact addLight_congr_elem i c _ _
            (fun j' hj' => addLight_other_obs i c a j' buf hca hj') j hj
        · rw [if_neg hct, if_neg (by simp [List.mem_cons, hca, hct])]
          exact addLight_other_obs i c a j buf hca hj

lemma populateLight_obs (st : BaseRenderer) (r : ClusterRange) (i : ℕ)
    (buf : Buffer) (cx cy cz : ℕ) (hcx : cx < st.xSlices) (hcy : cy < st.ySlices)
    (hx0 : 0 ≤ r.xMin) (hxn : r.xMax ≤ (st.xSlices : ℤ))
    (hy0 : 0 ≤ r.yMin) (hyn : r.yMax ≤ (st.ySlices : ℤ))
    (hz0 : 0 ≤ r.zMin) :
    ∀ j, j < elementSize * 4 →
      populateLight st r i buf
          (bufferIndex (flatten st.xSlices st.ySlices cx cy cz) 0 + j)
        = (if inRangeB r cx cy cz = true
            then addLightToCluster i (flatten st.xSlices st.ySlices cx cy cz) buf
            else buf)
            (bufferIndex (flatten st.xSlices st.ySlices cx cy cz) 0 + j) := by
  intro j hj
  rw [populateLight_eq_foldAdd]
  rw [foldAdd_obs i (visitList st r) _ buf
    (List.nodup_iff_count_le_one.mp
      (nodup_visitList st r hx0 hxn hy0 hyn hz0) _) j hj]
  exact congrFun
    (if_congr (mem_visitList st r cx cy cz hcx hcy hx0 hxn hy0 hyn hz0) rfl rfl) _

/-! ## Claim C1 -/

/-- Whether light i's computed range covers cluster (cx, cy, cz). -/
def overlapsAt (st : BaseRenderer) (cam : Camera) (vm : Mat4)
    (lights : List Light) (cx cy cz i : ℕ) : Bool :=
  inRangeB (lightClusterRange st cam vm (lights.getD i dummyLight)) cx cy cz

/-- The population pass over the first m lights, as iterated in
updateClusters. -/
def popFold (st : BaseRenderer) (cam : Camera) (vm : Mat4) (lights : List Light)
    (m : ℕ) (buf0 : Buffer) : Buffer :=
  (List.range m).foldl (fun b i =>
    populateLight st (lightClusterRange st cam vm (lights.getD i dummyLight)) i b)
    buf0

lemma popFold_succ (st : BaseRenderer) (cam : Camera) (vm : Mat4)
    (lights : List Light) (m : ℕ) (buf0 : Buffer) :
    popFold st cam vm lights (m + 1) buf0
      = populateLight st (lightClusterRange st cam vm (lights.getD m dummyLight)) m
          (popFold st cam vm lights m buf0) := by
  unfold popFold
  rw [List.range_succ, List.foldl_append]
  simp

set_option maxHeartbeats 1000000 in
lemma popFold_inv (st : BaseRenderer) (cam : Camera) (vm : Mat4)
    (lights : List Light) (buf0 : Buffer) (cx cy cz : ℕ)
    (hcx : cx < st.xSlices) (hcy : cy < st.ySlices)
    (h0 : clusterCount buf0 (flatten st.xSlices st.ySlices cx cy cz)
      = ((0 : ℕ) : ℚ)) :
    ∀ m : ℕ,
      clusterCount (popFold st cam vm lights m buf0)
          (flatten st.xSlices st.ySlices cx cy cz)
        = ((min MAX_LIGHTS_PER_CLUSTER ((List.range m).filter
            (overlapsAt st cam vm lights cx cy cz)).length : ℕ) : ℚ)
    ∧ ∀ k, k < min MAX_LIGHTS_PER_CLUSTER ((List.range m).filter
          (overlapsAt st cam vm lights cx cy cz)).length →
        clusterSlot (popFold st cam vm lights m buf0)
            (flatten st.xSlices st.ySlices cx cy cz) (k + 1)
          = ((((List.range m).filter
              (overlapsAt st cam vm lights cx cy cz)).getD k 0 : ℕ) : ℚ) := by
  intro m
  have hMAX : MAX_LIGHTS_PER_CLUSTER = 500 := rfl
  induction m with
  | zero =>
      refine ⟨by simpa using h0, ?_⟩
      intro k hk
      simp at hk
  | succ m ih =>
      obtain ⟨ihc, ihs⟩ := ih
      have hwf := lightClusterRange_wf st cam vm (lights.getD m dummyLight)
      have hstep := popFold_succ st cam vm lights m buf0
      have hfilter : (List.range (m + 1)).filter (overlapsAt st cam vm lights cx cy cz)
          = (List.range m).filter (overlapsAt st cam vm lights cx cy cz)
            ++ (if overlapsAt st cam vm lights cx cy cz m then [m] else []) := by
        rw [List.range_succ, List.filter_append, List.filter_singleton]
        simp [Bool.cond_eq_ite]
      have hobs := populateLight_obs st
        (lightClusterRange st cam vm (lights.getD m dummyLight)) m
        (popFold st cam vm lights m buf0) cx cy cz hcx hcy
        hwf.1.1 hwf.1.2.2 hwf.2.1.1 hwf.2.1.2.2 hwf.2.2.1
      have hcount0 := hobs 0 (by rw [elementSize_eq]; omega)
      rw [Nat.add_zero] at hcount0
      by_cases hov : overlapsAt st cam vm lights cx cy cz m = true
      · have hov' : inRangeB (lightClusterRange st cam vm (lights.getD m dummyLight))
            cx cy cz = true := hov
        have hlen1 : ((List.range (m + 1)).filter
            (overlapsAt st cam vm lights cx cy cz)).length
            = ((List.range m).filter (overlapsAt st cam vm lights cx cy cz)).length
              + 1 := by
          rw [hfilter, if_pos hov]
          simp
        by_cases hlen : ((List.range m).filter
            (overlapsAt st cam vm lights cx cy cz)).length < MAX_LIGHTS_PER_CLUSTER
        · have hcnt : (popFold st cam vm lights m buf0)
              (bufferIndex (flatten st.xSlices st.ySlices cx cy cz) 0)
              = ((((List.range m).filter
                  (overlapsAt st cam vm lights cx cy cz)).length : ℕ) : ℚ) := by
            have hmin : min MAX_LIGHTS_PER_CLUSTER ((List.range m).filter
                (overlapsAt st cam vm lights cx cy cz)).length
                = ((List.range m).filter
                  (overlapsAt st cam vm lights cx cy cz)).length := by omega
            have hc := ihc
            unfold clusterCount at hc
            rw [hc, hmin]
          have hstep2 := addLight_step m (flatten st.xSlices st.ySlices cx cy cz)
            ((List.range m).filter (overlapsAt st cam vm lights cx cy cz)).length
            (popFold st cam vm lights m buf0) hcnt hlen
          constructor
          · unfold clusterCount
            rw [hstep, hcount0, if_pos hov']
            have hcc := hstep2.1
            unfold clusterCount at hcc
            rw [hcc]
            have : min MAX_LIGHTS_PER_CLUSTER ((List.range (m + 1)).filter
                (overlapsAt st cam vm lights cx cy cz)).length
                = ((List.range m).filter
                  (overlapsAt st cam vm lights cx cy cz)).length + 1 := by
              omega
            rw [this]
          · intro k hk
            rw [hlen1] at hk
            have hk1 : k < ((List.range m).filter
                (overlapsAt st cam vm lights cx cy cz)).length + 1 := by omega
            unfold clusterSlot
            rw [hstep]
            have hslot := hobs (k + 1) (by rw [elementSize_eq]; omega)
            rw [hslot, if_pos hov']
            by_cases hkl : k < ((List.range m).filter
                (overlapsAt st cam vm lights cx cy cz)).length
            · have hne : k + 1 ≠ ((List.range m).filter
                  (overlapsAt st cam vm lights cx cy cz)).length + 1 := by omega
              have hu := hstep2.2.2 (k + 1) (by omega) hne
              unfold clusterSlot at hu
              rw [hu]
              have hs := ihs k (by omega)
              unfold clusterSlot at hs
              rw [hs, hfilter, if_pos hov,
                List.getD_append _ _ _ k hkl]
            · have hk_eq : k = ((List.range m).filter
                  (overlapsAt st cam vm lights cx cy cz)).length := by omega
              subst hk_eq
              have hi := hstep2.2.1
              unfold clusterSlot at hi
              rw [hi, hfilter, if_pos hov, List.getD_append_right _ _ _ _ (le_refl _)]
              simp
        · have hcnt : (popFold st cam vm lights m buf0)
              (bufferIndex (flatten st.xSlices st.ySlices cx cy cz) 0)
              = ((MAX_LIGHTS_PER_CLUSTER : ℕ) : ℚ) := by
            have hmin : min MAX_LIGHTS_PER_CLUSTER ((List.range m).filter
                (overlapsAt st cam vm lights cx cy cz)).length
                = MAX_LIGHTS_PER_CLUSTER := by omega
            have hc := ihc
            unfold clusterCount at hc
            rw [hc, hmin]
          have hnoop := addLight_noop m (flatten st.xSlices st.ySlices cx cy cz)
            MAX_LIGHTS_PER_CLUSTER (popFold st cam vm lights m buf0) hcnt (le_refl _)
          constructor
          · unfold clusterCount
            rw [hstep, hcount0, if_pos hov', hnoop, hcnt]
            have : min MAX_LIGHTS_PER_CLUSTER ((List.range (m + 1)).filter
                (overlapsAt st cam vm lights cx cy cz)).length
                = MAX_LIGHTS_PER_CLUSTER := by omega
            rw [this]
          · intro k hk
            have hkM : k < MAX_LIGHTS_PER_CLUSTER := by omega
            unfold clusterSlot
            rw [hstep]
            have hslot := hobs (k + 1) (by rw [elementSize_eq]; omega)
            rw [hslot, if_pos hov', hnoop]
            have hs := ihs k (by omega)
            unfold clusterSlot at hs
            rw [hs, hfilter, if_pos hov, List.getD_append _ _ _ k (by omega)]
      · have hov' : ¬(inRangeB (lightClusterRange st cam vm (lights.getD m dummyLight))
            cx cy cz = true) := hov
        have hfilter' : (List.range (m + 1)).filter
            (overlapsAt st cam vm lights cx cy cz)
            = (List.range m).filter (overlapsAt st cam vm lights cx cy cz) := by
          rw [hfilter, if_neg hov, List.append_nil]
        constructor
        · unfold clusterCount
          rw [hstep, hcount0, if_neg hov', hfilter']
          have hc := ihc
          unfold clusterCount at hc
          exact hc
        · intro k hk
          rw [hfilter'] at hk
          unfold clusterSlot
          rw [hstep]
          have hslot := hobs (k + 1) (by rw [elementSize_eq]; omega)
          rw [hslot, if_neg hov', hfilter']
          have hs := ihs k hk
          unfold clusterSlot at hs
          exact hs

set_option maxHeartbeats 1000000 in
/-- C1: after updateClusters, every in-grid cluster's stored light count is
at most MAX_LIGHTS_PER_CLUSTER (500); the count equals min(500, number of
lights whose computed range covers the cluster); and the stored slots
1..count hold exactly the covering lights' indices in scene-declaration
order, i.e. the first-processed overlapping lights - later overlapping
lights are dropped for that cluster only, with no error raised. -/
theorem C1_capacity_first_processed (st : BaseRenderer) (cam : Camera) (vm : Mat4)
    (lights : List Light) (buf : Buffer) (cx cy cz : ℕ)
    (hcx : cx < st.xSlices) (hcy : cy < st.ySlices) (hcz : cz < st.zSlices) :
    clusterCount (updateClusters st cam vm lights buf)
        (flatten st.xSlices st.ySlices cx cy cz) ≤ (MAX_LIGHTS_PER_CLUSTER : ℚ)
  ∧ clusterCount (updateClusters st cam vm lights buf)
        (flatten st.xSlices st.ySlices cx cy cz)
      = ((min MAX_LIGHTS_PER_CLUSTER ((List.range lights.length).filter (fun i =>
          inRangeB (lightClusterRange st cam vm (lights.getD i dummyLight))
            cx cy cz)).length : ℕ) : ℚ)
  ∧ ∀ k, k < min MAX_LIGHTS_PER_CLUSTER ((List.range lights.length).filter (fun i =>
        inRangeB (lightClusterRange st cam vm (lights.getD i dummyLight))
          cx cy cz)).length →
      clusterSlot (updateClusters st cam vm lights buf)
          (flatten st.xSlices st.ySlices cx cy cz) (k + 1)
        = ((((List.range lights.length).filter (fun i =>
            inRangeB (lightClusterRange st cam vm (lights.getD i dummyLight))
              cx cy cz)).getD k 0 : ℕ) : ℚ) := by
  have h0 : clusterCount (resetLoop st buf)
      (flatten st.xSlices st.ySlices cx cy cz) = ((0 : ℕ) : ℚ) := by
    unfold clusterCount
    rw [resetLoop_apply,
      if_pos ((mem_resetOffsets st _).mpr ⟨cz, hcz, cy, hcy, cx, hcx, rfl⟩)]
    simp
  have hmain := popFold_inv st cam vm lights (resetLoop st buf) cx cy cz hcx hcy h0
    lights.length
  refine ⟨?_, hmain.1, hmain.2⟩
  have hc := hmain.1
  show clusterCount (popFold st cam vm lights lights.length (resetLoop st buf)) _ ≤ _
  rw [hc]
  have hb : min MAX_LIGHTS_PER_CLUSTER ((List.range lights.length).filter
      (overlapsAt st cam vm lights cx cy cz)).length ≤ MAX_LIGHTS_PER_CLUSTER :=
    min_le_left _ _
  exact_mod_cast hb

/-- Witness for C1: a single light covering the lone cluster of a 1x1x1
grid ends with count 1 there. -/
theorem C1_witness :
    clusterCount (updateClusters (BaseRenderer.construct 1 1 1) cameraA matIdentity
        [⟨⟨0, 0, -10⟩, 1⟩] (fun _ => 0)) (flatten 1 1 0 0 0) = ((1 : ℕ) : ℚ) := by
  have h := (C1_capacity_first_processed (BaseRenderer.construct 1 1 1) cameraA
    matIdentity [⟨⟨0, 0, -10⟩, 1⟩] (fun _ => 0) 0 0 0 (by decide) (by decide)
    (by decide)).2.1
  exact h.trans (by decide)

/-! ## Claim C10 -/

lemma visitList_lt (st : BaseRenderer) (r : ClusterRange)
    (hx0 : 0 ≤ r.xMin) (hxn : r.xMax ≤ (st.xSlices : ℤ))
    (hy0 : 0 ≤ r.yMin) (hyn : r.yMax ≤ (st.ySlices : ℤ))
    (hz0 : 0 ≤ r.zMin) (hzn : r.zMax ≤ (st.zSlices : ℤ)) :
    ∀ c ∈ visitList st r, c < st.xSlices * st.ySlices * st.zSlices := by
  intro c hc
  unfold visitList at hc
  simp only [List.mem_flatMap, List.mem_map, mem_intRange] at hc
  obtain ⟨z, hz, y, hy, x, hx, he⟩ := hc
  rw [toNat_flat_eq _ _ _ _ _ (by omega) (by omega) (by omega)] at he
  rw [← he]
  exact flatten_lt _ _ _ _ _ _ (by omega) (by omega) (by omega)

lemma foldAdd_outside (i N p : ℕ) (hp : N * (elementSize * 4) ≤ p) :
    ∀ L : List ℕ, (∀ c ∈ L, c < N) → ∀ buf : Buffer, foldAdd i L buf p = buf p := by
  intro L
  induction L with
  | nil =>
      intro hL buf
      rfl
  | cons a t ih =>
      intro hL buf
      show foldAdd i t (addLightToCluster i a buf) p = buf p
      rw [ih (fun c hc => hL c (List.mem_cons_of_mem a hc)) (addLightToCluster i a buf)]
      apply addLight_apply_outside
      right
      have ha : a < N := hL a (List.mem_cons_self a t)
      have hmul : (a + 1) * (elementSize * 4) ≤ N * (elementSize * 4) :=
        mul_le_mul_right' (by omega) _
      rw [elementSize_eq] at hp hmul ⊢
      omega

lemma populateLight_outside (st : BaseRenderer) (r : ClusterRange) (i p : ℕ)
    (buf : Buffer)
    (hx0 : 0 ≤ r.xMin) (hxn : r.xMax ≤ (st.xSlices : ℤ))
    (hy0 : 0 ≤ r.yMin) (hyn : r.yMax ≤ (st.ySlices : ℤ))
    (hz0 : 0 ≤ r.zMin) (hzn : r.zMax ≤ (st.zSlices : ℤ))
    (hp : st.xSlices * st.ySlices * st.zSlices * (elementSize * 4) ≤ p) :
    populateLight st r i buf p = buf p := by
  rw [populateLight_eq_foldAdd]
  exact foldAdd_outside i _ p hp (visitList st r)
    (visitList_lt st r hx0 hxn hy0 hyn hz0 hzn) buf

/-- C10: every buffer write of updateClusters stays inside the allocated
region: the buffer is unchanged at every offset at or beyond
elementCount * elementSize * 4 (with elementSize = ceil((500+1)/4) = 126),
because each visited cluster index is in [0, nx*ny*nz) (all axis ranges are
clamped into [0, dim]) and each written scalar lies within its cluster's
126-group element (the capacity guard keeps the slot number at most 125). -/
theorem C10_writes_in_bounds (st : BaseRenderer) (cam : Camera) (vm : Mat4)
    (lights : List Light) (buf : Buffer) (p : ℕ)
    (hp : st.xSlices * st.ySlices * st.zSlices * (elementSize * 4) ≤ p) :
    elementSize = 126 ∧ updateClusters st cam vm lights buf p = buf p := by
  refine ⟨elementSize_eq, ?_⟩
  have hreset : resetLoop st buf p = buf p := by
    rw [resetLoop_apply, if_neg]
    rw [mem_resetOffsets]
    rintro ⟨z, hz, y, hy, x, hx, he⟩
    have hflat := flatten_lt st.xSlices st.ySlices st.zSlices x y z hx hy hz
    have hmul : (flatten st.xSlices st.ySlices x y z + 1) * (elementSize * 4)
        ≤ st.xSlices * st.ySlices * st.zSlices * (elementSize * 4) :=
      mul_le_mul_right' (by omega) _
    unfold bufferIndex at he
    rw [elementSize_eq] at he hmul hp
    omega
  have hpop : ∀ m, popFold st cam vm lights m (resetLoop st buf) p
      = resetLoop st buf p := by
    intro m
    induction m with
    | zero => rfl
    | succ m ih =>
        rw [popFold_succ]
        have hwf := lightClusterRange_wf st cam vm (lights.getD m dummyLight)
        rw [populateLight_outside st _ m p _ hwf.1.1 hwf.1.2.2 hwf.2.1.1
          hwf.2.1.2.2 hwf.2.2.1 hwf.2.2.2.2 hp, ih]
  show popFold st cam vm lights lights.length (resetLoop st buf) p = buf p
  rw [hpop lights.length, hreset]

/-- Witness for C10: on the 4x4x4 grid the first offset past the allocated
region keeps its prior value 37 across updateClusters. -/
theorem C10_witness :
    elementSize = 126
  ∧ updateClusters gridA cameraA matIdentity [lightC6] (fun _ => 37)
      (gridA.xSlices * gridA.ySlices * gridA.zSlices * (elementSize * 4)) = 37 :=
  C10_writes_in_bounds gridA cameraA matIdentity [lightC6] (fun _ => 37) _
    (le_refl _)
